import Mathlib

/-!
# rssnex: framed request/response client over a serial link

A shallow embedding of `src/rss.c` and `src/main.c`.

* Bytes are natural numbers below 256, strings and buffers are lists of bytes.
* `size_t` is the 32-bit unsigned type of the target, modelled by `Nat` with an
  explicit `% 2 ^ 32`; `int16_t` and `int32_t` are `Int` with explicit wrapping.
* The serial transport, the output sink and the host calls are external: they are
  driven by a `Host` oracle and every call is recorded in the trace of the `World`.
-/

namespace Rssnex

/-! ## C strings and the `stdio` conversions used by the program -/

/-- Bytes of a string literal of the source. -/
def str (s : String) : List Nat := s.toList.map Char.toNat

/-- The C string stored at a pointer: the bytes before the first NUL. -/
def cstr (p : List Nat) : List Nat := p.takeWhile (fun c => c != 0)

/-- The C function `strlen`: length of the C string at a pointer. -/
def strlen (p : List Nat) : Nat := (cstr p).length

/-- Wrap to the 32-bit unsigned range of `size_t`. -/
def wrap32 (n : Int) : Nat := (n % 4294967296).toNat

/-- Wrap to the signed 16-bit range of `int16_t`. -/
def wrap16 (n : Int) : Int := (n + 32768) % 65536 - 32768

/-- Wrap to the signed 32-bit range of `int32_t`. -/
def wrapInt32 (n : Int) : Int := (n + 2147483648) % 4294967296 - 2147483648

/-- The lowercase hexadecimal digit character of a value below 16. -/
def hexDigit (d : Nat) : Nat := if d < 10 then 48 + d else 87 + d

/-- Hexadecimal digits of `n`, most significant first, without leading zeros;
`fuel` bounds the number of digits (8 is enough for a 32-bit value). -/
def hexDigits : Nat → Nat → List Nat
  | 0, _ => []
  | fuel + 1, n =>
    if n < 16 then [hexDigit n] else hexDigits fuel (n / 16) ++ [hexDigit (n % 16)]

/-- The call `sprintf(buf, "%08x", v)` for a 32-bit unsigned `v`: the hexadecimal digits of `v`,
padded on the left with `'0'` to a width of 8. -/
def sprintf_08x (v : Nat) : List Nat :=
  let ds := hexDigits 8 (v % 4294967296)
  List.replicate (8 - ds.length) 48 ++ ds

/-- Decimal digits of `n`, most significant first; `fuel` bounds the number of digits. -/
def decDigits : Nat → Nat → List Nat
  | 0, _ => []
  | fuel + 1, n =>
    if n < 10 then [48 + n] else decDigits fuel (n / 10) ++ [48 + n % 10]

/-- The call `sprintf(buf, "%d", v)` for an `int` argument. -/
def sprintf_d (v : Int) : List Nat :=
  if v < 0 then 45 :: decDigits 10 v.natAbs else decDigits 10 v.natAbs

/-- The C function `isspace` in the C locale. -/
def isspace (c : Nat) : Bool := c == 32 || (9 ≤ c && c ≤ 13)

/-- Value of a hexadecimal digit character, either case. -/
def hexValue (c : Nat) : Option Nat :=
  if 48 ≤ c ∧ c ≤ 57 then some (c - 48)
  else if 97 ≤ c ∧ c ≤ 102 then some (c - 87)
  else if 65 ≤ c ∧ c ≤ 70 then some (c - 55)
  else none

/-- Value of a decimal digit character. -/
def decValue (c : Nat) : Option Nat :=
  if 48 ≤ c ∧ c ≤ 57 then some (c - 48) else none

/-- The digit run of a `%x` conversion: at most `width` hexadecimal digits are consumed;
`acc` is `none` while no digit has been read. -/
def scanHex : Nat → List Nat → Option Nat → Option Nat
  | 0, _, acc => acc
  | _ + 1, [], acc => acc
  | w + 1, c :: cs, acc =>
    match hexValue c with
    | none => acc
    | some d => scanHex w cs (some (acc.getD 0 * 16 + d))

/-- The call `sscanf(p, "%08x", &v)`: white space is skipped, then at most 8 characters are
consumed: an optional sign, an optional `0x`/`0X` prefix and hexadecimal digits.
The result is `none` on a matching failure (no digit), in which case `v` is not
assigned; otherwise the value converted to 32-bit unsigned. -/
def sscanf_08x (p : List Nat) : Option Nat :=
  let s1 := (cstr p).dropWhile isspace
  let neg := s1.head? == some 45
  let signed := s1.head? == some 45 || s1.head? == some 43
  let s2 := if signed then s1.drop 1 else s1
  let w2 := if signed then 7 else 8
  let pre := s2.head? == some 48 && ((s2.drop 1).head? == some 120 || (s2.drop 1).head? == some 88)
  let s3 := if pre then s2.drop 2 else s2
  let w3 := if pre then w2 - 2 else w2
  (scanHex w3 s3 none).map (fun (v : Nat) => if neg then wrap32 (- (v : Int)) else v % 4294967296)

/-- The digit run of `atoi`. -/
def scanDec : List Nat → Nat → Nat
  | [], acc => acc
  | c :: cs, acc =>
    match decValue c with
    | none => acc
    | some d => scanDec cs (acc * 10 + d)

/-- The C function `atoi`: white space is skipped, an optional sign is read, then decimal digits;
the value is wrapped to `int`. -/
def atoi (p : List Nat) : Int :=
  let s1 := (cstr p).dropWhile isspace
  let neg := s1.head? == some 45
  let signed := s1.head? == some 45 || s1.head? == some 43
  let s2 := if signed then s1.drop 1 else s1
  let v : Int := scanDec s2 0
  wrapInt32 (if neg then - v else v)

/-- The test `strcmp(a, b) == 0`: the two C strings are equal. -/
def strcmp_eq (a b : List Nat) : Bool := cstr a == cstr b

/-- The bytes of `buf` with `data` stored at offset `off` (`memcpy` into a buffer);
a buffer shorter than the offset is continued with zero bytes. -/
def blit (buf : List Nat) (off : Nat) (data : List Nat) : List Nat :=
  buf.take off ++ List.replicate (off - buf.length) 0 ++ data ++ buf.drop (off + data.length)

/-- The `len` bytes of `buf` from offset `off`; bytes past the stored ones are zero. -/
def peek (buf : List Nat) (off len : Nat) : List Nat :=
  (List.range len).map (fun i => buf.getD (off + i) 0)

/-! ## Request frames (`rss.c`) -/

/-- The three lines shared by both operations (46-48 and 101-103): the length of the
string in `request_buf`, less the 10 header bytes, is printed as `%08x` and copied
over the placeholder; the result is the `request_size` bytes handed to `uart_write`. -/
def put_request_size (request_buf : List Nat) : List Nat :=
  let request_size := strlen request_buf % 4294967296
  let body_size_buf := sprintf_08x (wrap32 ((request_size : Int) - 10))
  let request_buf := blit request_buf 2 (body_size_buf.take 8)
  request_buf.take request_size

/-- Lines 40-48 of `rss_download_channel`: the request frame built in `request_buf`,
as handed to `uart_write` on line 49. The buffer is represented by the string it
holds. -/
def download_request (output_format : Int) (rss_url : List Nat) : List Nat :=
  let request_buf :=
    if output_format = 1 then str ">|        /dshell?link=" else str ">|        /openbbs?link="
  let request_buf := request_buf ++ cstr rss_url
  put_request_size request_buf

/-- Lines 100-103 of `rss_datetime`: the request frame built in `request_buf`,
as handed to `uart_write` on line 104. -/
def datetime_request (tz : Int) : List Nat :=
  let request_buf := str ">|        /datetime?tz=" ++ sprintf_d (wrap16 tz)
  put_request_size request_buf

/-! ## The host: transport, output sink and system calls -/

/-- Everything the program observes from outside. The serial transport (`uart.c`),
the C library and the Human68k calls are not part of the sources; their results are
given by these oracles. -/
structure Host where
  /-- Result code `UART_OK` of `uart.h`. -/
  UART_OK : Int
  /-- Result code `UART_EXIT` of `uart.h`. -/
  UART_EXIT : Int
  /-- Result code `UART_QUIT` of `uart.h`. -/
  UART_QUIT : Int
  /-- Result code `UART_TIMEOUT` of `uart.h`. -/
  UART_TIMEOUT : Int
  /-- The bytes arriving on the serial line, in order. -/
  rx : Nat → Nat
  /-- Result of the `k`-th call of `uart_write`. -/
  uart_write_result : Nat → Int
  /-- Result of the `k`-th call of `uart_read`. -/
  uart_read_result : Nat → Int
  /-- Number of bytes the `k`-th call of `uart_read` stored before it failed. -/
  uart_read_short : Nat → Nat
  /-- Number of items the `k`-th call of `fwrite` reports, given the number offered. -/
  fwrite_result : Nat → Nat → Nat
  /-- Value found in the unassigned local `response_size` after `k` reads. -/
  indeterminate : Nat → Nat
  /-- Result of `GETENV`: the value of an environment variable, if it is set. -/
  getenv : List Nat → Option (List Nat)
  /-- Result of `uart_open`. -/
  uart_open_result : Int
  /-- Whether `fopen` of the output file succeeds. -/
  fopen_ok : Bool
  /-- Initial contents of the local array `ts0` of `main`. -/
  ts0 : List Nat
  /-- Initial contents of the local array `ts1` of `main`. -/
  ts1 : List Nat

/-- Calls that leave the program, in the order they are made. -/
inductive Event where
  | uart_open (baud_rate timeout result : Int)
  | uart_write (data : List Nat) (result : Int)
  | uart_read (len : Nat) (result : Int) (data : List Nat)
  | fwrite (offered : List Nat) (written : Nat)
  | fopen (name : List Nat) (ok : Bool)
  | fclose
  | uart_close
  | wait
  | SETTIM2 (time : Int)
  | SETDATE (date : Int)
  | DELETE (name : List Nat)
  deriving DecidableEq, Repr

/-- State of the exchange: position on the serial line, call counters, the static
`response_buf` of `rss.c` (bytes past the stored ones are zero) and the trace. -/
structure World where
  rx_pos : Nat
  reads : Nat
  writes : Nat
  fwrites : Nat
  response_buf : List Nat
  trace : List Event
  deriving DecidableEq, Repr

/-- State at program start: nothing received, static storage zeroed. -/
def World.init : World :=
  { rx_pos := 0, reads := 0, writes := 0, fwrites := 0, response_buf := [], trace := [] }

/-- Modelled from the spec: `uart_write` of the absent `uart.c`, a blocking write that
returns a result code; the call is recorded. -/
def uart_write (h : Host) (w : World) (data : List Nat) : Int × World :=
  let result := h.uart_write_result w.writes
  (result, { w with writes := w.writes + 1, trace := w.trace ++ [Event.uart_write data result] })

/-- The `len` bytes of the serial line from position `pos`. -/
def line (h : Host) (pos len : Nat) : List Nat :=
  (List.range len).map (fun i => h.rx (pos + i))

/-- Modelled from the spec: `uart_read` of the absent `uart.c`, a blocking read of `len`
bytes that returns a result code. With `UART_OK` exactly `len` bytes of the line are
delivered, otherwise the bytes stored before the failure. -/
def uart_read (h : Host) (w : World) (len : Nat) : Int × List Nat × World :=
  let result := h.uart_read_result w.reads
  let n := if result = h.UART_OK then len else min (h.uart_read_short w.reads) len
  let data := line h w.rx_pos n
  (result, data,
    { w with rx_pos := w.rx_pos + n, reads := w.reads + 1,
             trace := w.trace ++ [Event.uart_read len result data] })

/-- The call `fwrite(ptr, 1, count, output_file)`: the sink takes some of the offered bytes, never
more than offered; the call is recorded. -/
def fwrite (h : Host) (w : World) (offered : List Nat) : Nat × World :=
  let len := min (h.fwrite_result w.fwrites offered.length) offered.length
  (len, { w with fwrites := w.fwrites + 1, trace := w.trace ++ [Event.fwrite offered len] })

/-! ## The protocol client (`rss.c`) -/

/-- Lines 77-82 of `rss_download_channel`: the `do ... while` loop that streams the body
to the output file. `fuel` bounds the number of iterations; `none` means it ran out. -/
def fwrite_loop (h : Host) : Nat → World → Nat → Nat → Option World
  | 0, _, _, _ => none
  | fuel + 1, w, response_size, write_len =>
    let r := fwrite h w (peek w.response_buf (14 + write_len) (response_size - write_len))
    let len := r.1
    let w := r.2
    if len = 0 then some w
    else
      let write_len := write_len + len
      if write_len < response_size then fwrite_loop h fuel w response_size write_len
      else some w

/-- The function `rss_download_channel` (lines 34-89): result code and final state. Each pass of the
write loop stores at least one byte, so `response_size + 1` passes always suffice
(`fwrite_loop_isSome`). -/
def rss_download_channel (h : Host) (w : World) (rss_url : List Nat) (output_format : Int) :
    Option (Int × World) :=
  let rc : Int := -1
  let r := uart_write h w (download_request output_format rss_url)
  let w := r.2
  if r.1 ≠ 0 then some (rc, w) else
  let r := uart_read h w 14
  let uart_result := r.1
  let w := { r.2.2 with response_buf := blit r.2.2.response_buf 0 r.2.1 }
  if uart_result ≠ h.UART_OK then some (uart_result, w) else
  if peek w.response_buf 0 6 ≠ str "<|0200" then some (rc, w) else
  let response_size := (sscanf_08x (w.response_buf.drop 6)).getD (h.indeterminate w.reads % 4294967296)
  if response_size > 1024 * 128 - 16 then some (rc, w) else
  let r := uart_read h w response_size
  let uart_result := r.1
  let w := { r.2.2 with response_buf := blit r.2.2.response_buf 14 r.2.1 }
  if uart_result ≠ h.UART_OK then some (uart_result, w) else
  match fwrite_loop h (response_size + 1) w response_size 0 with
  | none => none
  | some w => some (0, w)

/-- The function `rss_datetime` (lines 94-137): result code, contents of `buf` and final state. -/
def rss_datetime (h : Host) (w : World) (tz : Int) (buf : List Nat) (buf_len : Nat) :
    Int × List Nat × World :=
  let rc : Int := -1
  let r := uart_write h w (datetime_request tz)
  let w := r.2
  if r.1 ≠ 0 then (rc, buf, w) else
  let r := uart_read h w 14
  let uart_result := r.1
  let w := { r.2.2 with response_buf := blit r.2.2.response_buf 0 r.2.1 }
  if uart_result ≠ h.UART_OK then (uart_result, buf, w) else
  if peek w.response_buf 0 6 ≠ str "<|0200" then (rc, buf, w) else
  let response_size := (sscanf_08x (w.response_buf.drop 6)).getD (h.indeterminate w.reads % 4294967296)
  if response_size > buf_len then (rc, buf, w) else
  let r := uart_read h w response_size
  let uart_result := r.1
  let w := r.2.2
  let buf := blit buf 0 r.2.1
  if uart_result ≠ h.UART_OK then (uart_result, buf, w) else
  (0, buf, w)

/-! ## The program (`main.c`) -/

/-- Settings of `main` that the command line can change (lines 65-82). -/
structure Options where
  quiet_mode : Int
  datetime_sync_mode : Int
  tz : Int
  output_format : Int
  rss_url : Option (List Nat)
  output_file_name : List Nat
  deriving DecidableEq, Repr

/-- Lines 97-125 of `main`: the loop over `argv[1 ..]`; `none` is the jump to `exit`
taken for `-h` and for an unknown option. -/
def parse_args : List (List Nat) → Options → Option Options
  | [], o => some o
  | a :: rest, o =>
    if a.getD 0 0 = 45 ∧ strlen a ≥ 2 then
      if a.getD 1 0 = 104 then none
      else if a.getD 1 0 = 100 then parse_args rest { o with output_format := 1 }
      else if a.getD 1 0 = 116 then
        parse_args rest
          { o with datetime_sync_mode := 1, quiet_mode := 1,
                   tz := if strlen a > 2 then wrap16 (atoi (a.drop 2)) else o.tz }
      else none
    else
      if o.rss_url = none then parse_args rest { o with rss_url := some a }
      else parse_args rest { o with output_file_name := cstr a }

/-- Record a host call in the trace. -/
def emit (w : World) (e : Event) : World := { w with trace := w.trace ++ [e] }

/-- Lines 168-202 of `main`: the polling loop of the clock-sync mode, with `ts0` the
baseline. The result is the value of `rc` at `catch` and the final state. `fuel` bounds
the number of polls; `none` means the loop is still running when it is used up. -/
def sync_loop (h : Host) (tz : Int) (ts0 : List Nat) : Nat → List Nat → World → Option (Int × World)
  | 0, _, _ => none
  | fuel + 1, ts1, w =>
    let r := rss_datetime h w tz ts1 127
    let ts1 := r.2.1
    let w := r.2.2
    if r.1 ≠ 0 then some (-1, w) else
    let ts1 := blit ts1 19 [0]
    if strcmp_eq ts0 ts1 then sync_loop h tz ts0 fuel ts1 (emit w Event.wait) else
    let ts1 := blit ts1 4 [0]
    let ts1 := blit ts1 7 [0]
    let ts1 := blit ts1 10 [0]
    let ts1 := blit ts1 13 [0]
    let ts1 := blit ts1 16 [0]
    let hour := wrap16 (atoi (ts1.drop 11))
    let min := wrap16 (atoi (ts1.drop 14))
    let sec := wrap16 (atoi (ts1.drop 17))
    let w := emit w (Event.SETTIM2
      (Int.lor (Int.lor (wrapInt32 (hour * 65536)) (wrapInt32 (min * 256))) sec))
    let year := wrap16 (atoi ts1 - 1980)
    let month := wrap16 (atoi (ts1.drop 5))
    let day := wrap16 (atoi (ts1.drop 8))
    let w := emit w (Event.SETDATE
      (Int.lor (Int.lor (wrapInt32 (year * 512)) (wrapInt32 (month * 32))) day))
    some (0, w)

/-- Lines 230-260 of `main`: the `catch` block; `fo_open` tells whether `fo` is not `NULL`. -/
def cleanup (stdout_mode : Int) (fo_open : Bool) (output_file_name : List Nat) (rc : Int)
    (w : World) : Int × World :=
  let w := if stdout_mode = 0 ∧ fo_open then emit w Event.fclose else w
  let w := emit w Event.uart_close
  let w := if rc ≠ 0 then emit w (Event.DELETE output_file_name) else w
  (rc, w)

/-- The expression `GETENV(name, NULL, env_var_buffer) >= 0 ? atoi(env_var_buffer) : dflt`
(lines 59-68). -/
def getenv_int (h : Host) (name : String) (dflt : Int) : Int :=
  match h.getenv (str name) with
  | some v => atoi v
  | none => dflt

/-- The settings of `main` before the command line is read (lines 65-82). -/
def default_options (h : Host) : Options :=
  { quiet_mode := wrap16 (getenv_int h "RSSN_QUIET" 0), datetime_sync_mode := 0, tz := 9,
    output_format := 0, rss_url := none, output_file_name := str "_R.D" }

/-- The function `main` (lines 50-261): exit code and final state. Display calls (cursor, function
keys, messages, progress bar) are not recorded. `fuel` bounds the polls of the
clock-sync loop; `none` means that loop is still running when it is used up. -/
def main (h : Host) (fuel : Nat) (argv : List (List Nat)) : Option (Int × World) :=
  let rc : Int := -1
  let baud_rate : Int := getenv_int h "RSSN_SPEED" 38400
  let timeout : Int := getenv_int h "RSSN_TIMEOUT" 60
  let stdout_mode : Int := wrap16 (getenv_int h "RSSN_STDOUT" 0)
  let w := World.init
  match parse_args (argv.drop 1) (default_options h) with
  | none => some (rc, w)
  | some o =>
    if baud_rate ≠ 9600 ∧ baud_rate ≠ 19200 ∧ baud_rate ≠ 38400 then some (rc, w) else
    if o.datetime_sync_mode = 0 ∧ o.rss_url = none then some (rc, w) else
    let w := emit w (Event.uart_open baud_rate timeout h.uart_open_result)
    if h.uart_open_result ≠ 0 then some (cleanup stdout_mode false o.output_file_name rc w) else
    if o.datetime_sync_mode ≠ 0 then
      let r := rss_datetime h w o.tz h.ts0 127
      if r.1 ≠ 0 then some (cleanup stdout_mode false o.output_file_name rc r.2.2) else
      let ts0 := blit r.2.1 19 [0]
      match sync_loop h o.tz ts0 fuel h.ts1 r.2.2 with
      | none => none
      | some r => some (cleanup stdout_mode false o.output_file_name r.1 r.2)
    else
      let fo_open : Bool := if stdout_mode ≠ 0 then true else h.fopen_ok
      let w := if stdout_mode ≠ 0 then w else emit w (Event.fopen o.output_file_name h.fopen_ok)
      if fo_open = false then some (cleanup stdout_mode false o.output_file_name rc w) else
      match rss_download_channel h w (o.rss_url.getD []) o.output_format with
      | none => none
      | some r =>
        let download_result := r.1
        let rc : Int :=
          if download_result = h.UART_QUIT ∨ download_result = h.UART_EXIT then rc
          else if download_result = h.UART_TIMEOUT then rc
          else 0
        some (cleanup stdout_mode true o.output_file_name rc r.2)

/-- Bytes taken by the output sink, in order. -/
def sink_bytes : List Event → List Nat
  | [] => []
  | Event.fwrite offered written :: es => offered.take written ++ sink_bytes es
  | _ :: es => sink_bytes es

/-- A host for examples: result codes as in `rss.h`, every call succeeds, the line
carries `line`, and the sink takes `chunk` bytes per call. -/
def exampleHost (line : List Nat) (chunk : Nat) : Host :=
  { UART_OK := 0, UART_EXIT := 1, UART_QUIT := 2, UART_TIMEOUT := 3,
    rx := fun i => line.getD i 0,
    uart_write_result := fun _ => 0,
    uart_read_result := fun _ => 0,
    uart_read_short := fun _ => 0,
    fwrite_result := fun _ _ => chunk,
    indeterminate := fun _ => 0,
    getenv := fun _ => none,
    uart_open_result := 0,
    fopen_ok := true,
    ts0 := [], ts1 := [] }

/-! ## Notions used to state the properties -/

/-- Number denoted by a run of hexadecimal digit characters. -/
def hexNum (ds : List Nat) : Nat := ds.foldl (fun a c => a * 16 + (hexValue c).getD 0) 0

/-- A byte is a hexadecimal digit character. -/
def isHexDigit (c : Nat) : Bool := (hexValue c).isSome

/-- Operation path of a download request, chosen by the output format. -/
def download_path (output_format : Int) : List Nat :=
  if output_format = 1 then str "/dshell?link=" else str "/openbbs?link="

/-- The calls made by the write loop of `rss_download_channel` when it is started in
state `w` for a body of `response_size` bytes. -/
def loop_events (h : Host) (w : World) (response_size : Nat) : List Event :=
  match fwrite_loop h (response_size + 1) w response_size 0 with
  | some w1 => w1.trace.drop w.trace.length
  | none => []

/-- The length field of a request frame is right: the frame starts with `>|`, bytes
2..9 are eight hexadecimal digits, and they decode (with the scanner of the program, and
as a plain hexadecimal number) to the number of bytes that follow the 10-byte header. -/
def LengthFieldOK (req : List Nat) : Prop :=
  req.take 2 = str ">|" ∧
  ((req.drop 2).take 8).length = 8 ∧
  (∀ c ∈ (req.drop 2).take 8, isHexDigit c = true) ∧
  10 ≤ req.length ∧
  sscanf_08x ((req.drop 2).take 8) = some (req.length - 10) ∧
  hexNum ((req.drop 2).take 8) = (req.drop 10).length

/-- Lengths asked of `uart_read`, call by call. -/
def read_lengths : List Event → List Nat
  | [] => []
  | Event.uart_read len _ _ :: es => len :: read_lengths es
  | _ :: es => read_lengths es

/-- State of `rss_download_channel` when the write loop starts: the request was written
and the header `hdr` and a body of `len` bytes were read from the line into
`response_buf`. -/
def before_loop (h : Host) (w : World) (req hdr : List Nat) (len : Nat) : World :=
  { rx_pos := w.rx_pos + 14 + len, reads := w.reads + 1 + 1, writes := w.writes + 1,
    fwrites := w.fwrites,
    response_buf := blit (blit w.response_buf 0 hdr) 14 (line h (w.rx_pos + 14) len),
    trace := w.trace ++
      [Event.uart_write req 0, Event.uart_read 14 h.UART_OK hdr,
       Event.uart_read len h.UART_OK (line h (w.rx_pos + 14) len)] }

/-- A host like `exampleHost` whose sink takes two bytes on the first `fwrite` call and
nothing afterwards (a disk that fills up). -/
def stallingHost (line : List Nat) : Host :=
  { exampleHost line 0 with fwrite_result := fun k _ => if k = 0 then 2 else 0 }

/-- A host like `exampleHost` whose `k`-th `uart_write` returns `wres k` and whose `k`-th
`uart_read` returns `rres k`. -/
def failingHost (line : List Nat) (wres rres : Nat → Int) : Host :=
  { exampleHost line 1 with uart_write_result := wres, uart_read_result := rres }

/-- A byte is a decimal digit character. -/
def isDigit (c : Nat) : Bool := 48 ≤ c && c ≤ 57

/-- A timestamp in the fixed layout `YYYY-MM-DD HH:MM:SS`, possibly followed by more
bytes: digits at the digit positions and the separators `-`, `-`, space, `:`, `:`. -/
def isTimestamp (t : List Nat) : Bool :=
  19 ≤ t.length &&
  [0, 1, 2, 3, 5, 6, 8, 9, 11, 12, 14, 15, 17, 18].all (fun i => isDigit (t.getD i 0)) &&
  t.getD 4 0 == 45 && t.getD 7 0 == 45 && t.getD 10 0 == 32 && t.getD 13 0 == 58 &&
  t.getD 16 0 == 58

/-- Decimal value of the `n` digit characters of `t` from offset `off`. -/
def field (t : List Nat) (off n : Nat) : Int :=
  (((t.drop off).take n).foldl (fun a c => a * 10 + (c - 48)) 0 : Nat)

/-- The word given to `SETTIM2` (line 191) for the fields of the timestamp `t`. -/
def time_word (t : List Nat) : Int :=
  Int.lor (Int.lor (field t 11 2 * 65536) (field t 14 2 * 256)) (field t 17 2)

/-- The word given to `SETDATE` (line 196) for the fields of the timestamp `t`. -/
def date_word (t : List Nat) : Int :=
  Int.lor (Int.lor ((field t 0 4 - 1980) * 512) (field t 5 2 * 32)) (field t 8 2)

/-- The calls of one successful date-time query that is answered with the header
`<|0200` + `ds` and the body `body`. -/
def query_events (tz ok : Int) (ds body : List Nat) : List Event :=
  [Event.uart_write (datetime_request tz) 0,
   Event.uart_read 14 ok (str "<|0200" ++ ds),
   Event.uart_read body.length ok body]

/-- The host answers the next queries, made at line position `pos` after `r` reads and
`k` writes, one after the other with the given header digits and bodies: every write and
read succeeds, and the line carries the frames back to back. -/
def serves (h : Host) : Nat → Nat → Nat → List (List Nat × List Nat) → Bool
  | _, _, _, [] => true
  | pos, r, k, (ds, body) :: rest =>
    decide (h.uart_write_result k = 0) && decide (h.uart_read_result r = h.UART_OK) &&
    decide (h.uart_read_result (r + 1) = h.UART_OK) &&
    decide (line h pos 14 = str "<|0200" ++ ds) && decide (ds.length = 8) &&
    ds.all isHexDigit && decide (hexNum ds = body.length) &&
    decide (line h (pos + 14) body.length = body) &&
    serves h (pos + 14 + body.length) (r + 2) (k + 1) rest

/-- The event is a request write: one query. -/
def Event.isQuery : Event → Bool
  | Event.uart_write _ _ => true
  | _ => false

/-- The event is the 100 ms wait of the sync loop. -/
def Event.isWait : Event → Bool
  | Event.wait => true
  | _ => false

/-- The event is a call of `SETTIM2`. -/
def Event.isSetTime : Event → Bool
  | Event.SETTIM2 _ => true
  | _ => false

/-- The event is a call of `SETDATE`. -/
def Event.isSetDate : Event → Bool
  | Event.SETDATE _ => true
  | _ => false

/-- The calls of successive polls that each find the time unchanged: the query, then the
100 ms wait. -/
def poll_events (tz ok : Int) : List (List Nat × List Nat) → List Event
  | [] => []
  | (ds, body) :: rest => query_events tz ok ds body ++ [Event.wait] ++ poll_events tz ok rest

/-- The serial line of the scenario `T0, T0, T0, T1`: three answers `2023-08-22 10:00:00`
and then `2023-08-22 10:00:01`, each after the header `<|020000000013` (19 bytes). -/
def tickLine : List Nat :=
  str "<|0200000000132023-08-22 10:00:00" ++ str "<|0200000000132023-08-22 10:00:00" ++
  str "<|0200000000132023-08-22 10:00:00" ++ str "<|0200000000132023-08-22 10:00:01"

/-- Position on the serial line after the given frames were read from position `pos`. -/
def line_after (pos : Nat) : List (List Nat × List Nat) → Nat
  | [] => pos
  | (_, body) :: rest => line_after (pos + 14 + body.length) rest

/-- The date-time query made at line position `pos` after `r` reads and `k` writes fails:
the request write or the header read fails, or the header does not start with `<|0200`,
or it declares (in eight hexadecimal digits) more than `buf_len` bytes, or the body read
fails. -/
def query_fails (h : Host) (pos r k buf_len : Nat) : Bool :=
  h.uart_write_result k != 0 || h.uart_read_result r != h.UART_OK ||
  (line h pos 14).take 6 != str "<|0200" ||
  (((line h pos 14).drop 6).all isHexDigit &&
    (decide (hexNum ((line h pos 14).drop 6) > buf_len) ||
      h.uart_read_result (r + 1) != h.UART_OK))

/-- The event is a transport call. -/
def Event.isTransport : Event → Bool
  | Event.uart_write _ _ => true
  | Event.uart_read _ _ _ => true
  | _ => false

/-- Number of bytes that lines 40-45 of `rss_download_channel` store into the 512-byte
`request_buf`: the string built by `strcpy` and `strcat`, and its terminating NUL. The
calls have no length limit. -/
def request_stored (output_format : Int) (rss_url : List Nat) : Nat :=
  let request_buf :=
    if output_format = 1 then str ">|        /dshell?link=" else str ">|        /openbbs?link="
  let request_buf := request_buf ++ cstr rss_url
  strlen request_buf + 1

/-- A host like `exampleHost` (sink taking one byte per call) where the unassigned local
`response_size` is found to hold `garbage`. -/
def garbageHost (line : List Nat) (garbage : Nat) : Host :=
  { exampleHost line 1 with indeterminate := fun _ => garbage }

/-- The event is a call of `DELETE`. -/
def Event.isDelete : Event → Bool
  | Event.DELETE _ => true
  | _ => false

/-- State of `main` in download mode when the exchange starts (line 219): the transport
is open and, unless standard output is used, the output file was opened. -/
def download_start (h : Host) (o : Options) : World :=
  let w := emit World.init (Event.uart_open (getenv_int h "RSSN_SPEED" 38400)
    (getenv_int h "RSSN_TIMEOUT" 60) h.uart_open_result)
  if wrap16 (getenv_int h "RSSN_STDOUT" 0) ≠ 0 then w
  else emit w (Event.fopen o.output_file_name h.fopen_ok)

/-- The calls of the cleanup of `main` in download mode before the file is deleted: the
output file is closed unless standard output is used, then the transport is closed. -/
def closing_events (h : Host) : List Event :=
  (if wrap16 (getenv_int h "RSSN_STDOUT" 0) = 0 then [Event.fclose] else []) ++
    [Event.uart_close]

/-- A body of at least 19 bytes with decimal digits at the offsets 0-3, 5-6, 8-9, 11-12,
14-15 and 17-18. -/
def hasDigitFields (t : List Nat) : Bool :=
  19 ≤ t.length &&
  [0, 1, 2, 3, 5, 6, 8, 9, 11, 12, 14, 15, 17, 18].all (fun i => isDigit (t.getD i 0))

/-- The packing of line 191: `(hour << 16) | (min << 8) | sec`. -/
def pack_time (hour min sec : Int) : Int :=
  Int.lor (Int.lor (hour * 65536) (min * 256)) sec

/-- The packing of line 196: `(year << 9) | (month << 5) | day`, with `year` counted from
1980. -/
def pack_date (year month day : Int) : Int :=
  Int.lor (Int.lor (year * 512) (month * 32)) day

/-- A serial line with two answers, the second with the day field 33:
`2023-01-32 23:59:59` and then `2023-01-33 00:00:00`. -/
def badDayLine : List Nat :=
  str "<|0200000000132023-01-32 23:59:59" ++ str "<|0200000000132023-01-33 00:00:00"

/-- A serial line with two answers of 19 bytes that start with a NUL byte and differ in
their last byte. -/
def nulLine : List Nat :=
  str "<|020000000013" ++ (0 :: str "023-08-22 10:00:00") ++
  str "<|020000000013" ++ (0 :: str "023-08-22 10:00:01")

/-- The arguments that `main` does not read as options (line 98): those that do not
start with `-` or are shorter than two bytes. -/
def positionals (args : List (List Nat)) : List (List Nat) :=
  args.filter (fun a => !(decide (a.getD 0 0 = 45 ∧ strlen a ≥ 2)))

/-- A host like `failingHost` with the environment variable `RSSN_STDOUT` set to `1`. -/
def stdoutHost (line : List Nat) (wres rres : Nat → Int) : Host :=
  { failingHost line wres rres with
    getenv := fun name => if name = str "RSSN_STDOUT" then some (str "1") else none }

/-! ## Examples -/

example : download_request 0 (str "http://example/feed") = str ">|00000021/openbbs?link=http://example/feed" := by
  decide
example : datetime_request (-12) = str ">|00000010/datetime?tz=-12" := by decide
example : sscanf_08x (str "00000021/openbbs") = some 33 := by decide
example : sscanf_08x (str "  -0x1f") = some 4294967265 := by decide
example : atoi (str " -123x") = -123 := by decide
example : (rss_download_channel (exampleHost (str "<|020000000005hello") 2) World.init
    (str "http://example/feed") 0).map (fun r => (r.1, sink_bytes r.2.trace)) = some (0, str "hello") := by
  decide
example : (main (exampleHost (str "<|020000000005hello") 2) 0
    [str "rssnex", str "http://example/feed"]).map (fun r => (r.1, sink_bytes r.2.trace)) = some (0, str "hello") := by
  decide

/-! ## Hexadecimal fields -/

theorem hexValue_hexDigit : ∀ d, d < 16 → hexValue (hexDigit d) = some d := by
  decide

theorem hexValue_lt (c d : Nat) (h : hexValue c = some d) : d < 16 := by
  unfold hexValue at h
  split_ifs at h <;> simp at h <;> omega

theorem scanHex_some (f : Nat → Nat → Nat) (hf : f = fun a c => a * 16 + (hexValue c).getD 0) :
    ∀ (ds rest : List Nat) (a : Nat), (∀ c ∈ ds, isHexDigit c = true) →
      scanHex ds.length (ds ++ rest) (some a) = some (ds.foldl f a) := by
  intro ds
  induction ds with
  | nil => intro rest a _; simp [scanHex]
  | cons c cs ih =>
    intro rest a hall
    have hc : isHexDigit c = true := hall c (by simp)
    obtain ⟨d, hd⟩ := Option.isSome_iff_exists.mp hc
    have := ih rest (a * 16 + d) (fun x hx => hall x (by simp [hx]))
    simp [scanHex, hd, this, hf]

theorem scanHex_digits (ds rest : List Nat) (hall : ∀ c ∈ ds, isHexDigit c = true)
    (hne : ds ≠ []) : scanHex ds.length (ds ++ rest) none = some (hexNum ds) := by
  cases ds with
  | nil => exact absurd rfl hne
  | cons c cs =>
    have hc : isHexDigit c = true := hall c (by simp)
    obtain ⟨d, hd⟩ := Option.isSome_iff_exists.mp hc
    have := scanHex_some _ rfl cs rest (0 * 16 + d) (fun x hx => hall x (by simp [hx]))
    simp [scanHex, hd, hexNum] at this ⊢
    exact this

theorem hexNum_append_single (ds : List Nat) (c : Nat) :
    hexNum (ds ++ [c]) = hexNum ds * 16 + (hexValue c).getD 0 := by
  simp [hexNum, List.foldl_append]

theorem hexNum_lt : ∀ (ds : List Nat), hexNum ds < 16 ^ ds.length := by
  intro ds
  induction ds using List.reverseRecOn with
  | nil => simp [hexNum]
  | append_singleton ds c ih =>
    rw [hexNum_append_single, List.length_append, List.length_singleton, pow_succ]
    have : (hexValue c).getD 0 < 16 := by
      cases hv : hexValue c with
      | none => simp
      | some d => simpa using hexValue_lt c d hv
    omega
theorem hexDigits_spec : ∀ (fuel n : Nat), 0 < fuel → n < 16 ^ fuel →
    (hexDigits fuel n).length ≤ fuel ∧ 0 < (hexDigits fuel n).length ∧
    (∀ c ∈ hexDigits fuel n, isHexDigit c = true) ∧ hexNum (hexDigits fuel n) = n := by
  intro fuel
  induction fuel with
  | zero => intro n h; omega
  | succ k ih =>
    intro n _ hn
    unfold hexDigits
    by_cases h16 : n < 16
    · simp only [h16, if_true]
      refine ⟨by simp, by simp, ?_, ?_⟩
      · intro c hc
        simp at hc
        subst hc
        simp [isHexDigit, hexValue_hexDigit n h16]
      · simp [hexNum, hexValue_hexDigit n h16]
    · simp only [h16, if_false]
      have hk : 0 < k := by
        rcases Nat.eq_zero_or_pos k with h0 | h0
        · subst h0; simp at hn; omega
        · exact h0
      have hdiv : n / 16 < 16 ^ k := by
        rw [pow_succ] at hn
        exact Nat.div_lt_of_lt_mul (by omega)
      obtain ⟨h1, h2, h3, h4⟩ := ih (n / 16) hk hdiv
      have hmod : n % 16 < 16 := Nat.mod_lt _ (by norm_num)
      refine ⟨by simp; omega, by simp, ?_, ?_⟩
      · intro c hc
        rcases List.mem_append.mp hc with hc | hc
        · exact h3 c hc
        · simp at hc
          subst hc
          simp [isHexDigit, hexValue_hexDigit _ hmod]
      · rw [hexNum_append_single, h4, hexValue_hexDigit _ hmod]
        simp
        omega

theorem hexNum_zeros (k : Nat) (ds : List Nat) :
    hexNum (List.replicate k 48 ++ ds) = hexNum ds := by
  induction k with
  | zero => simp
  | succ k ih =>
    simp only [List.replicate_succ, List.cons_append, hexNum, List.foldl_cons] at ih ⊢
    have : hexValue 48 = some 0 := by decide
    simpa [this] using ih

theorem sprintf_08x_spec (v : Nat) (hv : v < 4294967296) :
    (sprintf_08x v).length = 8 ∧ (∀ c ∈ sprintf_08x v, isHexDigit c = true) ∧
    hexNum (sprintf_08x v) = v := by
  obtain ⟨h1, _, h3, h4⟩ := hexDigits_spec 8 v (by norm_num) (by norm_num; omega)
  unfold sprintf_08x
  simp only [Nat.mod_eq_of_lt hv]
  refine ⟨by simp; omega, ?_, ?_⟩
  · intro c hc
    rcases List.mem_append.mp hc with hc | hc
    · have := List.eq_of_mem_replicate hc
      subst this
      decide
    · exact h3 c hc
  · rw [hexNum_zeros, h4]

theorem isHexDigit_facts (c : Nat) (h : isHexDigit c = true) :
    c ≠ 0 ∧ isspace c = false ∧ c ≠ 45 ∧ c ≠ 43 ∧ c ≠ 120 ∧ c ≠ 88 := by
  unfold isHexDigit hexValue at h
  unfold isspace
  split_ifs at h <;> simp at h ⊢ <;> omega

theorem cstr_append_of_nonzero (ds rest : List Nat) (h : ∀ c ∈ ds, c ≠ 0) :
    cstr (ds ++ rest) = ds ++ cstr rest := by
  induction ds with
  | nil => simp
  | cons c cs ih =>
    have hc : c ≠ 0 := h c (by simp)
    have := ih (fun x hx => h x (by simp [hx]))
    simp [cstr, List.takeWhile_cons, hc] at this ⊢
    exact this

/-- Scanning a field made of eight hexadecimal digits yields the number they denote,
whatever follows the field. -/
theorem sscanf_08x_digits (ds rest : List Nat) (hlen : ds.length = 8)
    (hall : ∀ c ∈ ds, isHexDigit c = true) : sscanf_08x (ds ++ rest) = some (hexNum ds) := by
  have hnz : ∀ c ∈ ds, c ≠ 0 := fun c hc => (isHexDigit_facts c (hall c hc)).1
  have hlt := hexNum_lt ds
  rw [hlen] at hlt
  match ds, hlen, hall, hnz, hlt with
  | c0 :: c1 :: cs, hlen, hall, hnz, hlt =>
    have f0 := isHexDigit_facts c0 (hall c0 (by simp))
    have f1 := isHexDigit_facts c1 (hall c1 (by simp))
    have hs := scanHex_digits (c0 :: c1 :: cs) (cstr rest) hall (by simp)
    rw [hlen] at hs
    unfold sscanf_08x
    rw [cstr_append_of_nonzero _ _ hnz]
    simp only [List.cons_append, List.dropWhile_cons, f0.2.1]
    simp [f0, f1] 
    simp at hs
    rw [hs]
    simp
    omega

/-! ## Request frames -/

theorem cstr_nonzero (p : List Nat) : ∀ c ∈ cstr p, c ≠ 0 := by
  intro c hc
  have := List.mem_takeWhile_imp hc
  simpa using this

theorem cstr_of_nonzero (s : List Nat) (h : ∀ c ∈ s, c ≠ 0) : cstr s = s := by
  have := cstr_append_of_nonzero s [] h
  simpa [cstr] using this

theorem blit_inside (buf data : List Nat) (off : Nat) (h : off ≤ buf.length) :
    blit buf off data = buf.take off ++ data ++ buf.drop (off + data.length) := by
  unfold blit
  have : off - buf.length = 0 := by omega
  simp [this]

/-- Shape of a sealed request: marker, eight digits of the body length, body. -/
theorem put_request_size_eq (body : List Nat) (hnz : ∀ c ∈ body, c ≠ 0)
    (hlen : body.length ≤ 4294967285) :
    put_request_size (str ">|        " ++ body) = str ">|" ++ sprintf_08x body.length ++ body := by
  have hpre : ∀ c ∈ str ">|        " ++ body, c ≠ 0 := by
    intro c hc
    rcases List.mem_append.mp hc with hc | hc
    · intro h0; subst h0; revert hc; decide
    · exact hnz c hc
  have hl : (str ">|        ").length = 10 := by decide
  have hsp := (sprintf_08x_spec body.length (by omega)).1
  unfold put_request_size strlen
  rw [cstr_of_nonzero _ hpre]
  have hsz : (str ">|        " ++ body).length % 4294967296 = 10 + body.length := by
    rw [List.length_append, hl]; exact Nat.mod_eq_of_lt (by omega)
  simp only [hsz]
  have hw : wrap32 (((10 + body.length : Nat) : Int) - 10) = body.length := by
    unfold wrap32
    have : (((10 + body.length : Nat) : Int) - 10) = (body.length : Int) := by push_cast; ring
    rw [this]
    have : ((body.length : Int) % 4294967296) = (body.length : Int) :=
      Int.emod_eq_of_lt (by omega) (by omega)
    rw [this]; simp
  rw [hw]
  have ht : (sprintf_08x body.length).take 8 = sprintf_08x body.length := by
    rw [List.take_of_length_le (by omega)]
  rw [ht, blit_inside _ _ _ (by simp [hl]; omega)]
  have h2 : (str ">|        " ++ body).take 2 = str ">|" := by
    rw [List.take_append_of_le_length (by rw [hl]; norm_num)]; decide
  have h3 : (str ">|        " ++ body).drop (2 + (sprintf_08x body.length).length) = body := by
    rw [hsp, List.drop_append_of_le_length (by rw [hl])]
    have : (str ">|        ").drop (2 + 8) = [] := by decide
    rw [this]; rfl
  rw [h2, h3]
  apply List.take_of_length_le
  have : (str ">|").length = 2 := by decide
  simp [hsp, this]
  omega

theorem decDigits_spec : ∀ (fuel n : Nat), 0 < fuel → n < 10 ^ fuel →
    (decDigits fuel n).length ≤ fuel ∧ 0 < (decDigits fuel n).length ∧
    (∀ c ∈ decDigits fuel n, 48 ≤ c ∧ c ≤ 57) := by
  intro fuel
  induction fuel with
  | zero => intro n h; omega
  | succ k ih =>
    intro n _ hn
    unfold decDigits
    by_cases h10 : n < 10
    · simp only [h10, if_true]
      refine ⟨by simp, by simp, ?_⟩
      intro c hc
      simp at hc
      omega
    · simp only [h10, if_false]
      have hk : 0 < k := by
        rcases Nat.eq_zero_or_pos k with h0 | h0
        · subst h0; simp at hn; omega
        · exact h0
      have hdiv : n / 10 < 10 ^ k := by
        rw [pow_succ] at hn
        exact Nat.div_lt_of_lt_mul (by omega)
      obtain ⟨h1, h2, h3⟩ := ih (n / 10) hk hdiv
      refine ⟨by simp; omega, by simp, ?_⟩
      intro c hc
      rcases List.mem_append.mp hc with hc | hc
      · exact h3 c hc
      · simp at hc
        omega

theorem wrap16_range (v : Int) : -32768 ≤ wrap16 v ∧ wrap16 v ≤ 32767 := by
  unfold wrap16
  omega

theorem wrap16_of_range (v : Int) (h1 : -32768 ≤ v) (h2 : v ≤ 32767) : wrap16 v = v := by
  unfold wrap16
  omega

theorem sprintf_d_spec (v : Int) (h1 : -32768 ≤ v) (h2 : v ≤ 32767) :
    (sprintf_d v).length ≤ 11 ∧ 0 < (sprintf_d v).length ∧ ∀ c ∈ sprintf_d v, c ≠ 0 := by
  obtain ⟨a, b, c⟩ := decDigits_spec 10 v.natAbs (by norm_num) (by norm_num; omega)
  unfold sprintf_d
  split_ifs
  · refine ⟨by simp; omega, by simp, ?_⟩
    intro x hx
    rcases List.mem_cons.mp hx with hx | hx
    · omega
    · have := c x hx; omega
  · refine ⟨by omega, b, ?_⟩
    intro x hx
    have := c x hx; omega

/-- Shape of the download request as long as its length fits 32 bits. -/
theorem download_request_eq (output_format : Int) (rss_url : List Nat)
    (h : strlen rss_url ≤ 4294967000) :
    download_request output_format rss_url =
      str ">|" ++ sprintf_08x ((download_path output_format).length + strlen rss_url) ++
        (download_path output_format ++ cstr rss_url) := by
  have hp : (if output_format = 1 then str ">|        /dshell?link="
      else str ">|        /openbbs?link=") = str ">|        " ++ download_path output_format := by
    unfold download_path
    split_ifs <;> decide
  have hl : (download_path output_format).length ≤ 14 := by
    unfold download_path
    split_ifs <;> decide
  have hnz : ∀ c ∈ download_path output_format ++ cstr rss_url, c ≠ 0 := by
    intro c hc
    rcases List.mem_append.mp hc with hc | hc
    · intro h0; subst h0; revert hc; unfold download_path; split_ifs <;> decide
    · exact cstr_nonzero _ c hc
  unfold download_request
  simp only [hp, List.append_assoc]
  unfold strlen at h
  rw [put_request_size_eq _ hnz (by simp; omega)]
  simp [strlen]

/-- Shape of the date-time request. -/
theorem datetime_request_eq (tz : Int) :
    datetime_request tz =
      str ">|" ++ sprintf_08x (13 + (sprintf_d (wrap16 tz)).length) ++
        (str "/datetime?tz=" ++ sprintf_d (wrap16 tz)) := by
  obtain ⟨r1, r2⟩ := wrap16_range tz
  obtain ⟨a, b, c⟩ := sprintf_d_spec (wrap16 tz) r1 r2
  have hp : str ">|        /datetime?tz=" = str ">|        " ++ str "/datetime?tz=" := by decide
  have hl : (str "/datetime?tz=").length = 13 := by decide
  have hnz : ∀ x ∈ str "/datetime?tz=" ++ sprintf_d (wrap16 tz), x ≠ 0 := by
    intro x hx
    rcases List.mem_append.mp hx with hx | hx
    · intro h0; subst h0; revert hx; decide
    · exact c x hx
  unfold datetime_request
  simp only [hp, List.append_assoc]
  rw [put_request_size_eq _ hnz (by simp [hl]; omega)]
  simp [hl]

/-! ## The write loop -/

theorem peek_length (buf : List Nat) (off len : Nat) : (peek buf off len).length = len := by
  simp [peek]

theorem peek_add (buf : List Nat) (off k m : Nat) :
    peek buf off (k + m) = peek buf off k ++ peek buf (off + k) m := by
  simp [peek, List.range_add, Nat.add_assoc]

theorem peek_split (buf : List Nat) (off len k : Nat) (hk : k ≤ len) :
    peek buf off len = (peek buf off len).take k ++ peek buf (off + k) (len - k) := by
  obtain ⟨m, rfl⟩ := Nat.exists_eq_add_of_le hk
  rw [peek_add, List.take_left' (peek_length _ _ _)]
  simp

theorem sink_bytes_append (es fs : List Event) :
    sink_bytes (es ++ fs) = sink_bytes es ++ sink_bytes fs := by
  induction es with
  | nil => rfl
  | cons e es ih => cases e <;> simp [sink_bytes, ih]

/-- The write loop always ends within `response_size - write_len + 1` passes. It only
calls `fwrite`, and when the sink makes progress on every call the bytes it took are
exactly the rest of the body. -/
theorem fwrite_loop_spec (h : Host) : ∀ (fuel : Nat) (w : World) (response_size write_len : Nat),
    write_len ≤ response_size → response_size - write_len < fuel →
    ∃ evs, fwrite_loop h fuel w response_size write_len =
        some { w with fwrites := w.fwrites + evs.length, trace := w.trace ++ evs } ∧
      evs ≠ [] ∧
      (∀ e ∈ evs, ∃ o n, e = Event.fwrite o n) ∧
      ((∀ k n, 1 ≤ n → 1 ≤ h.fwrite_result k n) →
        sink_bytes evs = peek w.response_buf (14 + write_len) (response_size - write_len)) := by
  intro fuel
  induction fuel with
  | zero => intro w rs wl _ h2; omega
  | succ k ih =>
    intro w rs wl hle hfuel
    unfold fwrite_loop
    simp only [fwrite, peek_length]
    by_cases h0 : min (h.fwrite_result w.fwrites (rs - wl)) (rs - wl) = 0
    · simp only [h0, if_true]
      refine ⟨[Event.fwrite (peek w.response_buf (14 + wl) (rs - wl)) 0], by simp, by simp,
        by simp, ?_⟩
      intro hp
      have hz : rs - wl = 0 := by
        by_contra hne
        have := hp w.fwrites (rs - wl) (by omega)
        omega
      simp [sink_bytes, hz, peek]
    · simp only [h0, if_false]
      set len := min (h.fwrite_result w.fwrites (rs - wl)) (rs - wl) with hlen
      have hl1 : len ≤ rs - wl := by omega
      by_cases hlt : wl + len < rs
      · simp only [hlt, if_true]
        obtain ⟨evs, he, _, hf, hs⟩ := ih
          { w with fwrites := w.fwrites + 1,
                   trace := w.trace ++ [Event.fwrite (peek w.response_buf (14 + wl) (rs - wl)) len] }
          rs (wl + len) (by omega) (by omega)
        refine ⟨Event.fwrite (peek w.response_buf (14 + wl) (rs - wl)) len :: evs, ?_, by simp,
          ?_, ?_⟩
        · rw [he]; simp [Nat.add_assoc, Nat.add_comm 1]
        · intro e hmem
          rcases List.mem_cons.mp hmem with hmem | hmem
          · exact ⟨_, _, hmem⟩
          · exact hf e hmem
        · intro hp
          have := hs hp
          simp only [sink_bytes, this]
          rw [peek_split w.response_buf (14 + wl) (rs - wl) len hl1]
          simp [peek_length, Nat.add_assoc, Nat.sub_sub]
          rw [List.take_append_of_le_length (by simp [peek_length]; omega)]
          simp
      · simp only [hlt, if_false]
        refine ⟨[Event.fwrite (peek w.response_buf (14 + wl) (rs - wl)) len], by simp, by simp,
          by simp, ?_⟩
        intro _
        have : len = rs - wl := by omega
        simp [sink_bytes, this, List.take_of_length_le, peek_length]

/-! ## The exchange -/

/-- The write loop as `rss_download_channel` starts it: it ends, and changes the state
only by the `fwrite` calls it makes. -/
theorem fwrite_loop_start (h : Host) (w : World) (response_size : Nat) :
    fwrite_loop h (response_size + 1) w response_size 0 =
      some { w with fwrites := w.fwrites + (loop_events h w response_size).length,
                    trace := w.trace ++ loop_events h w response_size } := by
  obtain ⟨evs, he, _⟩ :=
    fwrite_loop_spec h (response_size + 1) w response_size 0 (Nat.zero_le _) (by omega)
  simp [loop_events, he]

theorem loop_events_spec (h : Host) (w : World) (response_size : Nat) :
    loop_events h w response_size ≠ [] ∧
    (∀ e ∈ loop_events h w response_size, ∃ o n, e = Event.fwrite o n) ∧
    ((∀ k n, 1 ≤ n → 1 ≤ h.fwrite_result k n) →
      sink_bytes (loop_events h w response_size) = peek w.response_buf 14 response_size) := by
  obtain ⟨evs, he, h1, h2, h3⟩ :=
    fwrite_loop_spec h (response_size + 1) w response_size 0 (Nat.zero_le _) (by omega)
  have : loop_events h w response_size = evs := by simp [loop_events, he]
  rw [this]
  exact ⟨h1, h2, by simpa using h3⟩

theorem uart_write_snd (h : Host) (w : World) (d : List Nat) :
    (uart_write h w d).2 =
      { w with writes := w.writes + 1,
               trace := w.trace ++ [Event.uart_write d (h.uart_write_result w.writes)] } := rfl

theorem uart_read_world (h : Host) (w : World) (n : Nat) :
    (uart_read h w n).2.2 =
      { w with rx_pos := w.rx_pos + (uart_read h w n).2.1.length,
               reads := w.reads + 1,
               trace := w.trace ++
                 [Event.uart_read n (h.uart_read_result w.reads) (uart_read h w n).2.1] } := by
  simp [uart_read, line]

/-- Every call of `rss_download_channel` returns, and the first thing it does is hand
the request frame to `uart_write`. -/
theorem rss_download_channel_sends (h : Host) (w : World) (rss_url : List Nat)
    (output_format : Int) :
    ∃ rc w1 rest, rss_download_channel h w rss_url output_format = some (rc, w1) ∧
      w1.trace = w.trace ++ Event.uart_write (download_request output_format rss_url)
        (h.uart_write_result w.writes) :: rest := by
  unfold rss_download_channel
  simp only [fwrite_loop_start]
  split_ifs
  · exact ⟨_, _, [], rfl, by simp [uart_write_snd, uart_read_world]⟩
  · exact ⟨_, _, _, rfl, by simp [uart_write_snd, uart_read_world]; rfl⟩
  · exact ⟨_, _, _, rfl, by simp [uart_write_snd, uart_read_world]; rfl⟩
  · exact ⟨_, _, _, rfl, by simp [uart_write_snd, uart_read_world]; rfl⟩
  · exact ⟨_, _, _, rfl, by simp [uart_write_snd, uart_read_world]; rfl⟩
  · exact ⟨_, _, _, rfl, by simp [uart_write_snd, uart_read_world]; rfl⟩

/-- The first thing `rss_datetime` does is hand the request frame to `uart_write`. -/
theorem rss_datetime_sends (h : Host) (w : World) (tz : Int) (buf : List Nat) (buf_len : Nat) :
    ∃ rest, (rss_datetime h w tz buf buf_len).2.2.trace =
      w.trace ++ Event.uart_write (datetime_request tz) (h.uart_write_result w.writes) :: rest := by
  unfold rss_datetime
  simp only []
  split_ifs
  · exact ⟨[], by simp [uart_write_snd, uart_read_world]⟩
  · exact ⟨_, by simp [uart_write_snd, uart_read_world]; rfl⟩
  · exact ⟨_, by simp [uart_write_snd, uart_read_world]; rfl⟩
  · exact ⟨_, by simp [uart_write_snd, uart_read_world]; rfl⟩
  · exact ⟨_, by simp [uart_write_snd, uart_read_world]; rfl⟩
  · exact ⟨_, by simp [uart_write_snd, uart_read_world]; rfl⟩

theorem lengthFieldOK_of_shape (body : List Nat) (hlen : body.length < 4294967296) :
    LengthFieldOK (str ">|" ++ sprintf_08x body.length ++ body) := by
  obtain ⟨h8, hall, hnum⟩ := sprintf_08x_spec body.length hlen
  have h2 : (str ">|").length = 2 := by decide
  have hd : ((str ">|" ++ sprintf_08x body.length ++ body).drop 2).take 8 =
      sprintf_08x body.length := by
    rw [List.append_assoc, List.drop_left' h2, List.take_left' h8]
  have hd10 : (str ">|" ++ sprintf_08x body.length ++ body).drop 10 = body := by
    apply List.drop_left'
    simp [h2, h8]
  refine ⟨?_, ?_, ?_, ?_, ?_, ?_⟩
  · rw [List.append_assoc, List.take_left' h2]
  · rw [hd, h8]
  · rw [hd]; exact hall
  · simp [h2, h8]
    omega
  · rw [hd]
    have := sscanf_08x_digits (sprintf_08x body.length) [] h8 hall
    rw [List.append_nil] at this
    rw [this, hnum]
    simp [h2, h8]
    omega
  · rw [hd, hd10, hnum]

/-- C1 (frame length invariant): for every URL and output format whose request fits the
512-byte transmit buffer, and for every time zone offset, the request handed to
`uart_write` starts with `>|`, bytes 2..9 are eight hexadecimal digits, and decoding
them yields the byte length of the whole request less 10, which is the length of the
path and query after the 10-byte header. -/
theorem frame_length_invariant (h : Host) (w : World) (rss_url : List Nat)
    (output_format tz : Int) (buf : List Nat) (buf_len : Nat)
    (hfit : 10 + (download_path output_format).length + strlen rss_url + 1 ≤ 512) :
    (∃ rc w1 rest, rss_download_channel h w rss_url output_format = some (rc, w1) ∧
      w1.trace = w.trace ++ Event.uart_write (download_request output_format rss_url)
        (h.uart_write_result w.writes) :: rest) ∧
    LengthFieldOK (download_request output_format rss_url) ∧
    (∃ rest, (rss_datetime h w tz buf buf_len).2.2.trace =
      w.trace ++ Event.uart_write (datetime_request tz) (h.uart_write_result w.writes) :: rest) ∧
    LengthFieldOK (datetime_request tz) := by
  refine ⟨rss_download_channel_sends h w rss_url output_format, ?_,
    rss_datetime_sends h w tz buf buf_len, ?_⟩
  · rw [download_request_eq output_format rss_url (by omega)]
    have := lengthFieldOK_of_shape (download_path output_format ++ cstr rss_url)
      (by simp [strlen] at hfit ⊢; omega)
    simpa [strlen] using this
  · rw [datetime_request_eq]
    obtain ⟨r1, r2⟩ := wrap16_range tz
    obtain ⟨a, _, _⟩ := sprintf_d_spec (wrap16 tz) r1 r2
    have hl : (str "/datetime?tz=").length = 13 := by decide
    have := lengthFieldOK_of_shape (str "/datetime?tz=" ++ sprintf_d (wrap16 tz))
      (by simp [hl]; omega)
    simpa [hl] using this

/-- Witness for C1: the request for `http://example/feed` and the query for time zone 9. -/
theorem frame_length_invariant_witness :
    10 + (download_path 0).length + strlen (str "http://example/feed") + 1 ≤ 512 ∧
    LengthFieldOK (download_request 0 (str "http://example/feed")) ∧
    LengthFieldOK (datetime_request 9) :=
  ⟨by decide,
   (frame_length_invariant (exampleHost [] 0) World.init (str "http://example/feed") 0 9 [] 127
      (by decide)).2.1,
   (frame_length_invariant (exampleHost [] 0) World.init (str "http://example/feed") 0 9 [] 127
      (by decide)).2.2.2⟩

/-! ## Response headers -/

theorem line_length (h : Host) (pos len : Nat) : (line h pos len).length = len := by
  simp [line]

theorem blit_zero (buf data : List Nat) : blit buf 0 data = data ++ buf.drop data.length := by
  simp [blit]

theorem peek_zero_append (a b : List Nat) (n : Nat) (hn : n ≤ a.length) :
    peek (a ++ b) 0 n = a.take n := by
  apply List.ext_getElem
  · simp [peek_length]; omega
  · intro i h1 h2
    rw [peek_length] at h1
    simp [peek, List.getD_eq_getElem?_getD, List.getElem?_append_left (show i < a.length by omega),
      List.getElem?_eq_getElem (show i < a.length by omega)]

/-- What the program sees of a header `<|0200` followed by eight hexadecimal digits:
the marker and status compare equal and the length field scans to its value. -/
theorem header_accepted (buf ds : List Nat) (hdr : List Nat) (hhdr : hdr = str "<|0200" ++ ds)
    (hlen : ds.length = 8) (hall : ∀ c ∈ ds, isHexDigit c = true) :
    peek (blit buf 0 hdr) 0 6 = str "<|0200" ∧
    sscanf_08x ((blit buf 0 hdr).drop 6) = some (hexNum ds) := by
  have h6 : (str "<|0200").length = 6 := by decide
  subst hhdr
  rw [blit_zero]
  constructor
  · rw [List.append_assoc, peek_zero_append _ _ 6 (by rw [h6]), List.take_of_length_le (by rw [h6])]
  · rw [List.append_assoc, List.drop_left' h6]
    exact sscanf_08x_digits ds _ hlen hall

/-- What the program sees of a header whose first six bytes are not `<|0200`. -/
theorem header_rejected (buf hdr : List Nat) (hlen : 6 ≤ hdr.length)
    (hbad : hdr.take 6 ≠ str "<|0200") : peek (blit buf 0 hdr) 0 6 ≠ str "<|0200" := by
  rw [blit_zero, peek_zero_append _ _ 6 hlen]
  exact hbad

/-- C2 (round-trip header parse): when the request was sent and the 14 header bytes
`<|0200` + eight hexadecimal digits denoting `L` were read, with `L` within the size
bound of the operation, both operations read exactly 14 header bytes and then ask for a
body of exactly `L` bytes; when the first six header bytes are not `<|0200`, both
return -1 right after the header read: no body read, no write to the output file. -/
theorem header_roundtrip (h : Host) (w : World) (rss_url : List Nat) (output_format tz : Int)
    (buf : List Nat) (buf_len : Nat)
    (hw : h.uart_write_result w.writes = 0)
    (hr : h.uart_read_result w.reads = h.UART_OK) :
    (∀ ds : List Nat, line h w.rx_pos 14 = str "<|0200" ++ ds → ds.length = 8 →
      (∀ c ∈ ds, isHexDigit c = true) →
      (hexNum ds ≤ 1024 * 128 - 16 →
        ∃ rc w1 data rest, rss_download_channel h w rss_url output_format = some (rc, w1) ∧
          w1.trace = w.trace ++
            [Event.uart_write (download_request output_format rss_url) 0,
             Event.uart_read 14 h.UART_OK (str "<|0200" ++ ds),
             Event.uart_read (hexNum ds) (h.uart_read_result (w.reads + 1)) data] ++ rest ∧
          ∀ e ∈ rest, ∃ o n, e = Event.fwrite o n) ∧
      (hexNum ds ≤ buf_len →
        ∃ data, (rss_datetime h w tz buf buf_len).2.2.trace = w.trace ++
            [Event.uart_write (datetime_request tz) 0,
             Event.uart_read 14 h.UART_OK (str "<|0200" ++ ds),
             Event.uart_read (hexNum ds) (h.uart_read_result (w.reads + 1)) data])) ∧
    ((line h w.rx_pos 14).take 6 ≠ str "<|0200" →
      (∃ w1, rss_download_channel h w rss_url output_format = some (-1, w1) ∧
        w1.trace = w.trace ++
          [Event.uart_write (download_request output_format rss_url) 0,
           Event.uart_read 14 h.UART_OK (line h w.rx_pos 14)]) ∧
      (rss_datetime h w tz buf buf_len).1 = -1 ∧
      (rss_datetime h w tz buf buf_len).2.2.trace = w.trace ++
          [Event.uart_write (datetime_request tz) 0,
           Event.uart_read 14 h.UART_OK (line h w.rx_pos 14)]) := by
  constructor
  · intro ds hline hlen hall
    obtain ⟨hm, hs⟩ := header_accepted w.response_buf ds _ hline hlen hall
    rw [hline] at hm hs
    constructor
    · intro hbound
      by_cases hr2 : h.uart_read_result (w.reads + 1) = h.UART_OK
      · simp [rss_download_channel, uart_read, uart_write, hw, hr, hline, hm, hs, hr2,
          Nat.not_lt.mpr hbound, fwrite_loop_start, line_length]
        exact ⟨_, _, ⟨rfl, rfl⟩, _, _, rfl, (loop_events_spec _ _ _).2.1⟩
      · simp [rss_download_channel, uart_read, uart_write, hw, hr, hline, hm, hs, hr2,
          Nat.not_lt.mpr hbound, line_length]
        exact ⟨_, _, ⟨rfl, rfl⟩, _, [], rfl, by simp⟩
    · intro hbound
      by_cases hr2 : h.uart_read_result (w.reads + 1) = h.UART_OK
      · simp [rss_datetime, uart_read, uart_write, hw, hr, hline, hm, hs, hr2,
          Nat.not_lt.mpr hbound]
      · simp [rss_datetime, uart_read, uart_write, hw, hr, hline, hm, hs, hr2,
          Nat.not_lt.mpr hbound]
  · intro hbad
    have hm := header_rejected w.response_buf (line h w.rx_pos 14) (by simp [line_length]) hbad
    refine ⟨?_, ?_, ?_⟩
    · simp [rss_download_channel, uart_read, uart_write, hw, hr, hm]
    · simp [rss_datetime, uart_read, uart_write, hw, hr, hm]
    · simp [rss_datetime, uart_read, uart_write, hw, hr, hm]

/-- Witness for C2: the header `<|020000000005` is followed by a body read of 5 bytes,
and the header `<|0404...` ends the download with -1 after the header read. -/
theorem header_roundtrip_witness :
    (∃ rc w1 data rest,
      rss_download_channel (exampleHost (str "<|020000000005hello") 2) World.init
        (str "http://example/feed") 0 = some (rc, w1) ∧
      w1.trace = [] ++
        [Event.uart_write (download_request 0 (str "http://example/feed")) 0,
         Event.uart_read 14 0 (str "<|0200" ++ str "00000005"),
         Event.uart_read (hexNum (str "00000005")) 0 data] ++ rest ∧
      ∀ e ∈ rest, ∃ o n, e = Event.fwrite o n) ∧
    (∃ w1, rss_download_channel (exampleHost (str "<|040400000000") 2) World.init
        (str "http://example/feed") 0 = some (-1, w1) ∧
      w1.trace = [] ++
        [Event.uart_write (download_request 0 (str "http://example/feed")) 0,
         Event.uart_read 14 0 (line (exampleHost (str "<|040400000000") 2) 0 14)]) :=
  ⟨((header_roundtrip (exampleHost (str "<|020000000005hello") 2) World.init
      (str "http://example/feed") 0 9 [] 127 rfl rfl).1 (str "00000005") (by decide) (by decide)
      (by decide)).1 (by decide),
   ((header_roundtrip (exampleHost (str "<|040400000000") 2) World.init
      (str "http://example/feed") 0 9 [] 127 rfl rfl).2 (by decide)).1⟩

/-! ## Size bounds -/

theorem read_lengths_append (es fs : List Event) :
    read_lengths (es ++ fs) = read_lengths es ++ read_lengths fs := by
  induction es with
  | nil => rfl
  | cons e es ih => cases e <;> simp [read_lengths, ih]

theorem read_lengths_fwrites (es : List Event) (h : ∀ e ∈ es, ∃ o n, e = Event.fwrite o n) :
    read_lengths es = [] := by
  induction es with
  | nil => rfl
  | cons e es ih =>
    obtain ⟨o, n, rfl⟩ := h e (by simp)
    simpa [read_lengths] using ih (fun x hx => h x (by simp [hx]))

theorem read_lengths_loop_events (h : Host) (w : World) (n : Nat) :
    read_lengths (loop_events h w n) = [] :=
  read_lengths_fwrites _ (loop_events_spec h w n).2.1

/-- Every run of `rss_download_channel` returns, and it reads nothing, or only the 14
header bytes, or the header and then a body whose length fits the part of `response_buf`
after the header. -/
theorem rss_download_channel_reads (h : Host) (w : World) (rss_url : List Nat)
    (output_format : Int) :
    ∃ rc w1, rss_download_channel h w rss_url output_format = some (rc, w1) ∧
      (read_lengths w1.trace = read_lengths w.trace ∨
       read_lengths w1.trace = read_lengths w.trace ++ [14] ∨
       ∃ len, read_lengths w1.trace = read_lengths w.trace ++ [14, len] ∧ 14 + len ≤ 131072) := by
  unfold rss_download_channel
  simp only [fwrite_loop_start]
  split_ifs
  · refine ⟨_, _, rfl, Or.inl ?_⟩
    simp [uart_write_snd, uart_read_world, read_lengths_append, read_lengths]
  · refine ⟨_, _, rfl, Or.inr (Or.inl ?_)⟩
    simp [uart_write_snd, uart_read_world, read_lengths_append, read_lengths]
  · refine ⟨_, _, rfl, Or.inr (Or.inl ?_)⟩
    simp [uart_write_snd, uart_read_world, read_lengths_append, read_lengths]
  · refine ⟨_, _, rfl, Or.inr (Or.inl ?_)⟩
    simp [uart_write_snd, uart_read_world, read_lengths_append, read_lengths]
  · rename_i hsz _
    refine ⟨_, _, rfl, Or.inr (Or.inr ?_)⟩
    simp [uart_write_snd, uart_read_world, read_lengths_append, read_lengths] at hsz ⊢
    omega
  · rename_i hsz _
    refine ⟨_, _, rfl, Or.inr (Or.inr ?_)⟩
    simp [uart_write_snd, uart_read_world, read_lengths_append, read_lengths,
      read_lengths_loop_events] at hsz ⊢
    omega

/-- Every run of `rss_datetime` reads nothing, or only the 14 header bytes, or the header
and then a body whose length fits the buffer of the caller. -/
theorem rss_datetime_reads (h : Host) (w : World) (tz : Int) (buf : List Nat) (buf_len : Nat) :
    read_lengths (rss_datetime h w tz buf buf_len).2.2.trace = read_lengths w.trace ∨
    read_lengths (rss_datetime h w tz buf buf_len).2.2.trace = read_lengths w.trace ++ [14] ∨
    ∃ len, read_lengths (rss_datetime h w tz buf buf_len).2.2.trace =
      read_lengths w.trace ++ [14, len] ∧ len ≤ buf_len := by
  unfold rss_datetime
  simp only []
  split_ifs
  · refine Or.inl ?_
    simp [uart_write_snd, uart_read_world, read_lengths_append, read_lengths]
  · refine Or.inr (Or.inl ?_)
    simp [uart_write_snd, uart_read_world, read_lengths_append, read_lengths]
  · refine Or.inr (Or.inl ?_)
    simp [uart_write_snd, uart_read_world, read_lengths_append, read_lengths]
  · refine Or.inr (Or.inl ?_)
    simp [uart_write_snd, uart_read_world, read_lengths_append, read_lengths]
  · rename_i hsz _
    refine Or.inr (Or.inr ?_)
    simp [uart_write_snd, uart_read_world, read_lengths_append, read_lengths] at hsz ⊢
    omega
  · rename_i hsz _
    refine Or.inr (Or.inr ?_)
    simp [uart_write_snd, uart_read_world, read_lengths_append, read_lengths] at hsz ⊢
    omega

/-- C3 (bounds enforcement): after a `<|0200` header whose eight digits denote a length
`L` above the capacity of the destination (131072 - 14 for the download, `buf_len` for the
date-time query) the operation returns -1 and makes no further call, so no body is read;
and in every run, whatever the host does, a body read that is issued asks for a length
that fits the destination: `14 + L ≤ 131072` for the download, `L ≤ buf_len` for the
date-time query. -/
theorem bounds_enforcement (h : Host) (w : World) (rss_url : List Nat) (output_format tz : Int)
    (buf : List Nat) (buf_len : Nat) :
    (h.uart_write_result w.writes = 0 → h.uart_read_result w.reads = h.UART_OK →
      ∀ ds : List Nat, line h w.rx_pos 14 = str "<|0200" ++ ds → ds.length = 8 →
        (∀ c ∈ ds, isHexDigit c = true) →
        (hexNum ds > 1024 * 128 - 14 →
          ∃ w1, rss_download_channel h w rss_url output_format = some (-1, w1) ∧
            w1.trace = w.trace ++
              [Event.uart_write (download_request output_format rss_url) 0,
               Event.uart_read 14 h.UART_OK (str "<|0200" ++ ds)]) ∧
        (hexNum ds > buf_len →
          (rss_datetime h w tz buf buf_len).1 = -1 ∧
          (rss_datetime h w tz buf buf_len).2.2.trace = w.trace ++
              [Event.uart_write (datetime_request tz) 0,
               Event.uart_read 14 h.UART_OK (str "<|0200" ++ ds)])) ∧
    (∃ rc w1, rss_download_channel h w rss_url output_format = some (rc, w1) ∧
      (read_lengths w1.trace = read_lengths w.trace ∨
       read_lengths w1.trace = read_lengths w.trace ++ [14] ∨
       ∃ len, read_lengths w1.trace = read_lengths w.trace ++ [14, len] ∧ 14 + len ≤ 131072)) ∧
    (read_lengths (rss_datetime h w tz buf buf_len).2.2.trace = read_lengths w.trace ∨
     read_lengths (rss_datetime h w tz buf buf_len).2.2.trace = read_lengths w.trace ++ [14] ∨
     ∃ len, read_lengths (rss_datetime h w tz buf buf_len).2.2.trace =
       read_lengths w.trace ++ [14, len] ∧ len ≤ buf_len) := by
  refine ⟨?_, rss_download_channel_reads h w rss_url output_format,
    rss_datetime_reads h w tz buf buf_len⟩
  intro hw hr ds hline hlen hall
  obtain ⟨hm, hs⟩ := header_accepted w.response_buf ds _ hline hlen hall
  rw [hline] at hm hs
  constructor
  · intro hbig
    have : 131056 < hexNum ds := by omega
    simp [rss_download_channel, uart_read, uart_write, hw, hr, hline, hm, hs, this]
  · intro hbig
    simp [rss_datetime, uart_read, uart_write, hw, hr, hline, hm, hs, hbig]

/-- Witness for C3: a header declaring 0x20000 = 131072 bytes is refused by both
operations. -/
theorem bounds_enforcement_witness :
    (∃ w1, rss_download_channel (exampleHost (str "<|020000020000") 2) World.init
        (str "http://example/feed") 0 = some (-1, w1) ∧
      w1.trace = [] ++
        [Event.uart_write (download_request 0 (str "http://example/feed")) 0,
         Event.uart_read 14 0 (str "<|0200" ++ str "00020000")]) ∧
    ((rss_datetime (exampleHost (str "<|020000020000") 2) World.init 9 [] 127).1 = -1 ∧
      (rss_datetime (exampleHost (str "<|020000020000") 2) World.init 9 [] 127).2.2.trace = [] ++
        [Event.uart_write (datetime_request 9) 0,
         Event.uart_read 14 0 (str "<|0200" ++ str "00020000")]) :=
  ⟨((bounds_enforcement (exampleHost (str "<|020000020000") 2) World.init
      (str "http://example/feed") 0 9 [] 127).1 rfl rfl (str "00020000") (by decide) (by decide)
      (by decide)).1 (by decide),
   ((bounds_enforcement (exampleHost (str "<|020000020000") 2) World.init
      (str "http://example/feed") 0 9 [] 127).1 rfl rfl (str "00020000") (by decide) (by decide)
      (by decide)).2 (by decide)⟩

/-! ## Streaming the body -/

theorem peek_blit (buf data : List Nat) (off : Nat) :
    peek (blit buf off data) off data.length = data := by
  have hp : (buf.take off ++ List.replicate (off - buf.length) 0).length = off := by
    simp [List.length_take]; omega
  apply List.ext_getElem
  · simp [peek_length]
  · intro i h1 h2
    have e : blit buf off data =
        (buf.take off ++ List.replicate (off - buf.length) 0) ++ (data ++ buf.drop (off + data.length)) := by
      simp [blit]
    simp only [peek, List.getElem_map, List.getElem_range, e, List.getD_eq_getElem?_getD]
    rw [List.getElem?_append_right (by omega), hp, Nat.add_sub_cancel_left,
      List.getElem?_append_left h2, List.getElem?_eq_getElem h2]
    rfl

/-- The successful path of `rss_download_channel`: after an accepted header and a
complete body read the result is 0, whatever the write loop does. -/
theorem rss_download_channel_received (h : Host) (w : World) (rss_url : List Nat)
    (output_format : Int) (ds : List Nat)
    (hw : h.uart_write_result w.writes = 0)
    (hr : h.uart_read_result w.reads = h.UART_OK)
    (hline : line h w.rx_pos 14 = str "<|0200" ++ ds) (hlen : ds.length = 8)
    (hall : ∀ c ∈ ds, isHexDigit c = true)
    (hbound : hexNum ds ≤ 1024 * 128 - 16)
    (hr2 : h.uart_read_result (w.reads + 1) = h.UART_OK) :
    rss_download_channel h w rss_url output_format =
      some (0, { before_loop h w (download_request output_format rss_url) (str "<|0200" ++ ds)
                   (hexNum ds) with
        fwrites := w.fwrites + (loop_events h (before_loop h w
          (download_request output_format rss_url) (str "<|0200" ++ ds) (hexNum ds)) (hexNum ds)).length,
        trace := (before_loop h w (download_request output_format rss_url) (str "<|0200" ++ ds)
            (hexNum ds)).trace ++
          loop_events h (before_loop h w (download_request output_format rss_url)
            (str "<|0200" ++ ds) (hexNum ds)) (hexNum ds) }) := by
  obtain ⟨hm, hs⟩ := header_accepted w.response_buf ds _ hline hlen hall
  rw [hline] at hm hs
  simp [rss_download_channel, uart_read, uart_write, hw, hr, hline, hm, hs, hr2,
    Nat.not_lt.mpr hbound, fwrite_loop_start, line_length, before_loop]

/-- C4 (streaming completeness): when an accepted body of `L` bytes was received and every
`fwrite` call takes at least one of the bytes offered (it never takes more than offered),
`rss_download_channel` ends and returns 0, and the bytes taken by the output file during
the call are exactly the `L` body bytes delivered by the transport, in order: none lost,
repeated or added, and no header byte. The calls made are the request write, the two
reads and then only `fwrite` calls. -/
theorem streaming_completeness (h : Host) (w : World) (rss_url : List Nat) (output_format : Int)
    (ds : List Nat)
    (hw : h.uart_write_result w.writes = 0)
    (hr : h.uart_read_result w.reads = h.UART_OK)
    (hline : line h w.rx_pos 14 = str "<|0200" ++ ds) (hlen : ds.length = 8)
    (hall : ∀ c ∈ ds, isHexDigit c = true)
    (hbound : hexNum ds ≤ 1024 * 128 - 16)
    (hr2 : h.uart_read_result (w.reads + 1) = h.UART_OK)
    (hsink : ∀ k n, 1 ≤ n → 1 ≤ h.fwrite_result k n) :
    ∃ w1 evs, rss_download_channel h w rss_url output_format = some (0, w1) ∧
      w1.trace = w.trace ++
        [Event.uart_write (download_request output_format rss_url) 0,
         Event.uart_read 14 h.UART_OK (str "<|0200" ++ ds),
         Event.uart_read (hexNum ds) h.UART_OK (line h (w.rx_pos + 14) (hexNum ds))] ++ evs ∧
      (∀ e ∈ evs, ∃ o n, e = Event.fwrite o n) ∧
      sink_bytes evs = line h (w.rx_pos + 14) (hexNum ds) ∧
      sink_bytes w1.trace = sink_bytes w.trace ++ line h (w.rx_pos + 14) (hexNum ds) ∧
      (sink_bytes evs).length = hexNum ds := by
  rw [rss_download_channel_received h w rss_url output_format ds hw hr hline hlen hall hbound hr2]
  have hsb := (loop_events_spec h (before_loop h w (download_request output_format rss_url)
    (str "<|0200" ++ ds) (hexNum ds)) (hexNum ds)).2.2 hsink
  have hpk := peek_blit (blit w.response_buf 0 (str "<|0200" ++ ds))
    (line h (w.rx_pos + 14) (hexNum ds)) 14
  rw [line_length] at hpk
  have hsb2 : sink_bytes (loop_events h (before_loop h w (download_request output_format rss_url)
      (str "<|0200" ++ ds) (hexNum ds)) (hexNum ds)) = line h (w.rx_pos + 14) (hexNum ds) := by
    rw [hsb]; exact hpk
  refine ⟨_, _, rfl, rfl, (loop_events_spec _ _ _).2.1, hsb2, ?_, ?_⟩
  · simp only [sink_bytes_append, hsb2]
    simp [before_loop, sink_bytes_append, sink_bytes]
  · rw [hsb2, line_length]

/-- Witness for C4: the body `hello` written two bytes at a time. -/
theorem streaming_completeness_witness :
    ∃ w1, rss_download_channel (exampleHost (str "<|020000000005hello") 2) World.init
        (str "http://example/feed") 0 = some (0, w1) ∧
      sink_bytes w1.trace = str "hello" :=
  let ⟨w1, _, h1, _, _, _, h5, _⟩ :=
    streaming_completeness (exampleHost (str "<|020000000005hello") 2) World.init
      (str "http://example/feed") 0 (str "00000005") rfl rfl (by decide) (by decide) (by decide)
      (by decide) rfl (fun _ _ _ => Nat.le_succ 1)
  ⟨w1, h1, h5⟩

/-- C5 (zero-progress write), the code at the failing input: the body `hello` is received,
the sink takes `he` and then nothing; `rss_download_channel` leaves the loop and still
returns 0, with only two of the five bytes written. -/
theorem zero_progress_write_returns_success :
    (rss_download_channel (stallingHost (str "<|020000000005hello")) World.init
        (str "http://example/feed") 0).map (fun r => (r.1, sink_bytes r.2.trace)) =
      some (0, str "he") := by
  decide

/-! ## Transport failures -/

/-- C6 (propagation of read failures): when `uart_read` returns a result `r` other than
`UART_OK` on the header read, or on the body read after an accepted header, both
operations return exactly `r`; the failed read is the last call they make, and nothing
is written to the output file. -/
theorem read_failure_propagates (h : Host) (w : World) (rss_url : List Nat)
    (output_format tz : Int) (buf : List Nat) (buf_len : Nat)
    (hw : h.uart_write_result w.writes = 0) :
    (h.uart_read_result w.reads ≠ h.UART_OK →
      (∃ w1 data, rss_download_channel h w rss_url output_format =
          some (h.uart_read_result w.reads, w1) ∧
        w1.trace = w.trace ++
          [Event.uart_write (download_request output_format rss_url) 0,
           Event.uart_read 14 (h.uart_read_result w.reads) data] ∧
        sink_bytes w1.trace = sink_bytes w.trace ∧ w1.fwrites = w.fwrites) ∧
      (rss_datetime h w tz buf buf_len).1 = h.uart_read_result w.reads ∧
      ∃ data, (rss_datetime h w tz buf buf_len).2.2.trace = w.trace ++
          [Event.uart_write (datetime_request tz) 0,
           Event.uart_read 14 (h.uart_read_result w.reads) data]) ∧
    (h.uart_read_result w.reads = h.UART_OK →
      h.uart_read_result (w.reads + 1) ≠ h.UART_OK →
      ∀ ds : List Nat, line h w.rx_pos 14 = str "<|0200" ++ ds → ds.length = 8 →
        (∀ c ∈ ds, isHexDigit c = true) →
        (hexNum ds ≤ 1024 * 128 - 16 →
          ∃ w1 data, rss_download_channel h w rss_url output_format =
              some (h.uart_read_result (w.reads + 1), w1) ∧
            w1.trace = w.trace ++
              [Event.uart_write (download_request output_format rss_url) 0,
               Event.uart_read 14 h.UART_OK (str "<|0200" ++ ds),
               Event.uart_read (hexNum ds) (h.uart_read_result (w.reads + 1)) data] ∧
            sink_bytes w1.trace = sink_bytes w.trace ∧ w1.fwrites = w.fwrites) ∧
        (hexNum ds ≤ buf_len →
          (rss_datetime h w tz buf buf_len).1 = h.uart_read_result (w.reads + 1) ∧
          ∃ data, (rss_datetime h w tz buf buf_len).2.2.trace = w.trace ++
              [Event.uart_write (datetime_request tz) 0,
               Event.uart_read 14 h.UART_OK (str "<|0200" ++ ds),
               Event.uart_read (hexNum ds) (h.uart_read_result (w.reads + 1)) data])) := by
  constructor
  · intro hr
    refine ⟨?_, ?_, ?_⟩
    · simp [rss_download_channel, uart_read, uart_write, hw, hr, sink_bytes_append, sink_bytes]
    · simp [rss_datetime, uart_read, uart_write, hw, hr]
    · simp [rss_datetime, uart_read, uart_write, hw, hr]
  · intro hr hr2 ds hline hlen hall
    obtain ⟨hm, hs⟩ := header_accepted w.response_buf ds _ hline hlen hall
    rw [hline] at hm hs
    constructor
    · intro hbound
      simp [rss_download_channel, uart_read, uart_write, hw, hr, hline, hm, hs, hr2,
        Nat.not_lt.mpr hbound, sink_bytes_append, sink_bytes]
    · intro hbound
      simp [rss_datetime, uart_read, uart_write, hw, hr, hline, hm, hs, hr2,
        Nat.not_lt.mpr hbound]

/-- Witness for C6: a timeout (3) on the header read and a cancel (2) on the body read
are returned as they are. -/
theorem read_failure_propagates_witness :
    (∃ w1 data, rss_download_channel
        (failingHost (str "<|020000000005hello") (fun _ => 0) (fun _ => 3)) World.init
        (str "http://example/feed") 0 = some (3, w1) ∧
      w1.trace = [] ++
        [Event.uart_write (download_request 0 (str "http://example/feed")) 0,
         Event.uart_read 14 3 data] ∧
      sink_bytes w1.trace = [] ∧ w1.fwrites = 0) ∧
    (∃ w1 data, rss_download_channel
        (failingHost (str "<|020000000005hello") (fun _ => 0) (fun k => if k = 1 then 2 else 0))
        World.init (str "http://example/feed") 0 = some (2, w1) ∧
      w1.trace = [] ++
        [Event.uart_write (download_request 0 (str "http://example/feed")) 0,
         Event.uart_read 14 0 (str "<|0200" ++ str "00000005"),
         Event.uart_read (hexNum (str "00000005")) 2 data] ∧
      sink_bytes w1.trace = [] ∧ w1.fwrites = 0) :=
  ⟨((read_failure_propagates
      (failingHost (str "<|020000000005hello") (fun _ => 0) (fun _ => 3)) World.init
      (str "http://example/feed") 0 9 [] 127 rfl).1 (by decide)).1,
   ((read_failure_propagates
      (failingHost (str "<|020000000005hello") (fun _ => 0) (fun k => if k = 1 then 2 else 0))
      World.init (str "http://example/feed") 0 9 [] 127 rfl).2 rfl (by decide)
      (str "00000005") (by decide) (by decide) (by decide)).1 (by decide)⟩

/-! ## Exit code after a protocol failure -/

/-- C7 (protocol failure in download mode), the code at the failing inputs: the bridge
answers with status `0404`, or with status `0200` and a declared length of 0x20000 bytes.
`rss_download_channel` returns -1, which `main` does not tell from success: the exit code
is 0 and the output file `_R.D` is closed and kept, no `DELETE` is issued. -/
theorem protocol_failure_exits_zero :
    (main (exampleHost (str "<|040400000000") 2) 0
        [str "rssnex", str "http://example/feed"]).map (fun r => (r.1, r.2.trace)) =
      some (0, [Event.uart_open 38400 60 0, Event.fopen (str "_R.D") true,
        Event.uart_write (str ">|00000021/openbbs?link=http://example/feed") 0,
        Event.uart_read 14 0 (str "<|040400000000"),
        Event.fclose, Event.uart_close]) ∧
    (main (exampleHost (str "<|020000020000") 2) 0
        [str "rssnex", str "http://example/feed"]).map (fun r => (r.1, r.2.trace)) =
      some (0, [Event.uart_open 38400 60 0, Event.fopen (str "_R.D") true,
        Event.uart_write (str ">|00000021/openbbs?link=http://example/feed") 0,
        Event.uart_read 14 0 (str "<|020000020000"),
        Event.fclose, Event.uart_close]) := by
  constructor <;> decide

/-! ## Clock synchronisation -/

/-- A query that the host serves with a body that fits the buffer succeeds: it returns
0, stores the body at the start of `buf` and makes the write and the two reads. -/
theorem rss_datetime_served (h : Host) (w : World) (tz : Int) (buf : List Nat) (buf_len : Nat)
    (ds body : List Nat) (rest : List (List Nat × List Nat))
    (hs : serves h w.rx_pos w.reads w.writes ((ds, body) :: rest) = true)
    (hfit : body.length ≤ buf_len) :
    rss_datetime h w tz buf buf_len =
      (0, blit buf 0 body,
        { rx_pos := w.rx_pos + 14 + body.length, reads := w.reads + 2, writes := w.writes + 1,
          fwrites := w.fwrites, response_buf := blit w.response_buf 0 (str "<|0200" ++ ds),
          trace := w.trace ++ query_events tz h.UART_OK ds body }) := by
  simp only [serves, Bool.and_eq_true, decide_eq_true_eq, List.all_eq_true] at hs
  obtain ⟨⟨⟨⟨⟨⟨⟨⟨hw, hr⟩, hr2⟩, hline⟩, hlen⟩, hall⟩, hnum⟩, hbody⟩, _⟩ := hs
  obtain ⟨hm, hsc⟩ := header_accepted w.response_buf ds _ hline hlen hall
  rw [hline] at hm hsc
  simp [rss_datetime, uart_read, uart_write, hw, hr, hline, hm, hsc, hr2, hnum, hbody,
    Nat.not_lt.mpr hfit, query_events]

theorem cstr_append_zero (p rest : List Nat) : cstr (p ++ 0 :: rest) = cstr p := by
  induction p with
  | nil => simp [cstr]
  | cons c cs ih =>
    unfold cstr at ih ⊢
    by_cases hc : c = 0
    · simp [List.takeWhile_cons, hc]
    · simp [List.takeWhile_cons, hc, ih]

/-- The string left in a timestamp buffer after a body of at least 19 bytes was stored
and byte 19 was cleared: the first 19 bytes of the body, up to a NUL. -/
theorem cstr_ts_buffer (buf body : List Nat) (hlen : 19 ≤ body.length) :
    cstr (blit (blit buf 0 body) 19 [0]) = cstr (body.take 19) := by
  have h1 : 19 + [0].length ≤ (blit buf 0 body).length ∨ (blit buf 0 body).length = 19 := by
    rw [blit_zero]; simp; omega
  have ht : (blit buf 0 body).take 19 = body.take 19 := by
    rw [blit_zero, List.take_append_of_le_length hlen]
  have e : blit (blit buf 0 body) 19 [0] =
      body.take 19 ++ 0 :: (blit buf 0 body).drop 20 := by
    unfold blit
    have hz : 19 - (List.take 0 buf ++ List.replicate (0 - buf.length) 0 ++ body ++
        List.drop (0 + body.length) buf).length = 0 := by
      simp; omega
    rw [hz]
    have ht2 : (List.take 0 buf ++ List.replicate (0 - buf.length) 0 ++ body ++
        List.drop (0 + body.length) buf).take 19 = body.take 19 := by
      simpa [blit] using ht
    rw [ht2]
    simp
  rw [e, cstr_append_zero]

theorem atoi_digits2 (a b : Nat) (rest : List Nat) (ha : isDigit a = true) (hb : isDigit b = true) :
    atoi (a :: b :: 0 :: rest) = (((a - 48) * 10 + (b - 48) : Nat) : Int) := by
  simp only [isDigit, Bool.and_eq_true, decide_eq_true_eq] at ha hb
  have ha0 : a ≠ 0 := by omega
  have hb0 : b ≠ 0 := by omega
  have hsp : isspace a = false := by simp [isspace]; omega
  have h45 : a ≠ 45 := by omega
  have h43 : a ≠ 43 := by omega
  have hda : decValue a = some (a - 48) := by simp [decValue]; omega
  have hdb : decValue b = some (b - 48) := by simp [decValue]; omega
  have hc : cstr (a :: b :: 0 :: rest) = [a, b] := by
    simp [cstr, List.takeWhile_cons, ha0, hb0]
  unfold atoi
  rw [hc]
  simp [List.dropWhile_cons, hsp, h45, h43, scanDec, hda, hdb, wrapInt32]
  omega

theorem atoi_digits4 (a b c d : Nat) (rest : List Nat) (ha : isDigit a = true)
    (hb : isDigit b = true) (hc : isDigit c = true) (hd : isDigit d = true) :
    atoi (a :: b :: c :: d :: 0 :: rest) =
      (((((a - 48) * 10 + (b - 48)) * 10 + (c - 48)) * 10 + (d - 48) : Nat) : Int) := by
  simp only [isDigit, Bool.and_eq_true, decide_eq_true_eq] at ha hb hc hd
  have ha0 : a ≠ 0 := by omega
  have hb0 : b ≠ 0 := by omega
  have hc0 : c ≠ 0 := by omega
  have hd0 : d ≠ 0 := by omega
  have hsp : isspace a = false := by simp [isspace]; omega
  have h45 : a ≠ 45 := by omega
  have h43 : a ≠ 43 := by omega
  have hda : decValue a = some (a - 48) := by simp [decValue]; omega
  have hdb : decValue b = some (b - 48) := by simp [decValue]; omega
  have hdc : decValue c = some (c - 48) := by simp [decValue]; omega
  have hdd : decValue d = some (d - 48) := by simp [decValue]; omega
  have hs : cstr (a :: b :: c :: d :: 0 :: rest) = [a, b, c, d] := by
    simp [cstr, List.takeWhile_cons, ha0, hb0, hc0, hd0]
  unfold atoi
  rw [hs]
  simp [List.dropWhile_cons, hsp, h45, h43, scanDec, hda, hdb, hdc, hdd, wrapInt32]
  omega

theorem timestamp_shape (t : List Nat) (h : isTimestamp t = true) :
    ∃ c0 c1 c2 c3 c4 c5 c6 c7 c8 c9 c10 c11 c12 c13 c14 c15 c16 c17 c18 rest,
      t = c0 :: c1 :: c2 :: c3 :: c4 :: c5 :: c6 :: c7 :: c8 :: c9 :: c10 :: c11 :: c12 ::
        c13 :: c14 :: c15 :: c16 :: c17 :: c18 :: rest := by
  have hl : 19 ≤ t.length := by
    simp only [isTimestamp, Bool.and_eq_true, decide_eq_true_eq] at h
    exact h.1.1.1.1.1.1
  rcases t with _ | ⟨c0, _ | ⟨c1, _ | ⟨c2, _ | ⟨c3, _ | ⟨c4, _ | ⟨c5, _ | ⟨c6, _ | ⟨c7,
    _ | ⟨c8, _ | ⟨c9, _ | ⟨c10, _ | ⟨c11, _ | ⟨c12, _ | ⟨c13, _ | ⟨c14, _ | ⟨c15, _ | ⟨c16,
    _ | ⟨c17, _ | ⟨c18, rest⟩⟩⟩⟩⟩⟩⟩⟩⟩⟩⟩⟩⟩⟩⟩⟩⟩⟩⟩ <;> simp at hl
  exact ⟨c0, c1, c2, c3, c4, c5, c6, c7, c8, c9, c10, c11, c12, c13, c14, c15, c16, c17, c18,
    rest, rfl⟩

theorem timestamp_cstr (t : List Nat) (h : isTimestamp t = true) : cstr (t.take 19) = t.take 19 := by
  obtain ⟨c0, c1, c2, c3, c4, c5, c6, c7, c8, c9, c10, c11, c12, c13, c14, c15, c16, c17, c18,
    rest, rfl⟩ := timestamp_shape t h
  apply cstr_of_nonzero
  simp only [isTimestamp, isDigit, List.all_cons, List.all_nil, Bool.and_eq_true,
    decide_eq_true_eq, beq_iff_eq, List.getD_cons_zero, List.getD_cons_succ] at h
  intro c hc
  simp at hc
  omega

theorem blit_cons_succ (c : Nat) (l d : List Nat) (n : Nat) :
    blit (c :: l) (n + 1) d = c :: blit l n d := by
  simp [blit, Nat.add_right_comm]

/-- The buffer `ts1` after a timestamp was stored and bytes 19, 4, 7, 10, 13 and 16 were
cleared (lines 175 and 182-186). -/
theorem ts_fields_buffer (buf : List Nat)
    (c0 c1 c2 c3 c4 c5 c6 c7 c8 c9 c10 c11 c12 c13 c14 c15 c16 c17 c18 : Nat) (rest : List Nat) :
    ∃ tail, blit (blit (blit (blit (blit (blit (blit buf 0
        (c0 :: c1 :: c2 :: c3 :: c4 :: c5 :: c6 :: c7 :: c8 :: c9 :: c10 :: c11 :: c12 ::
          c13 :: c14 :: c15 :: c16 :: c17 :: c18 :: rest)) 19 [0]) 4 [0]) 7 [0]) 10 [0]) 13 [0])
        16 [0] =
      c0 :: c1 :: c2 :: c3 :: 0 :: c5 :: c6 :: 0 :: c8 :: c9 :: 0 :: c11 :: c12 :: 0 ::
        c14 :: c15 :: 0 :: c17 :: c18 :: 0 :: tail := by
  rw [blit_zero]
  simp only [List.cons_append, blit_cons_succ]
  simp only [blit_zero, List.length_singleton, List.singleton_append, List.drop_succ_cons,
    List.drop_zero, blit_cons_succ]
  exact ⟨_, rfl⟩

theorem wrapInt32_of_range (v : Int) (h1 : -2147483648 ≤ v) (h2 : v ≤ 2147483647) :
    wrapInt32 v = v := by
  unfold wrapInt32
  omega

/-- The pass of the sync loop that sees a new timestamp: the clock is set from its fields
and the loop ends with `rc = 0`. -/
theorem sync_loop_tick (h : Host) (w : World) (tz : Int) (ts0 ts1 : List Nat) (fuel : Nat)
    (ds t : List Nat) (rest : List (List Nat × List Nat))
    (hs : serves h w.rx_pos w.reads w.writes ((ds, t) :: rest) = true)
    (hfit : t.length ≤ 127) (ht : isTimestamp t = true) (hne : cstr ts0 ≠ t.take 19) :
    ∃ w1, sync_loop h tz ts0 (fuel + 1) ts1 w = some (0, w1) ∧
      w1.trace = w.trace ++ query_events tz h.UART_OK ds t ++
        [Event.SETTIM2 (time_word t), Event.SETDATE (date_word t)] := by
  have hstr : strcmp_eq ts0 (blit (blit ts1 0 t) 19 [0]) = false := by
    have hl : 19 ≤ t.length := by
      simp only [isTimestamp, Bool.and_eq_true, decide_eq_true_eq] at ht
      exact ht.1.1.1.1.1.1
    unfold strcmp_eq
    rw [cstr_ts_buffer _ _ hl, timestamp_cstr t ht]
    simpa using hne
  unfold sync_loop
  simp only [rss_datetime_served h w tz ts1 127 ds t rest hs hfit, hstr]
  obtain ⟨c0, c1, c2, c3, c4, c5, c6, c7, c8, c9, c10, c11, c12, c13, c14, c15, c16, c17, c18,
    r, rfl⟩ := timestamp_shape t ht
  obtain ⟨tail, hbuf⟩ := ts_fields_buffer ts1 c0 c1 c2 c3 c4 c5 c6 c7 c8 c9 c10 c11 c12 c13 c14
    c15 c16 c17 c18 r
  simp only [isTimestamp, List.all_cons, List.all_nil, Bool.and_eq_true,
    decide_eq_true_eq, beq_iff_eq, List.getD_cons_zero, List.getD_cons_succ, Bool.and_true] at ht
  obtain ⟨⟨⟨⟨⟨⟨_, d0, d1, d2, d3, d5, d6, d8, d9, d11, d12, d14, d15, d17, d18⟩, _⟩, _⟩, _⟩, _⟩, _⟩ := ht
  simp only [hbuf, List.drop_succ_cons, List.drop_zero, atoi_digits2 _ _ _ d11 d12,
    atoi_digits2 _ _ _ d14 d15, atoi_digits2 _ _ _ d17 d18, atoi_digits2 _ _ _ d5 d6,
    atoi_digits2 _ _ _ d8 d9, atoi_digits4 _ _ _ _ _ d0 d1 d2 d3]
  simp only [isDigit, Bool.and_eq_true, decide_eq_true_eq] at d0 d1 d2 d3 d5 d6 d8 d9 d11 d12 d14 d15 d17 d18
  refine ⟨_, rfl, ?_⟩
  have hH : (c11 - 48) * 10 + (c12 - 48) ≤ 99 := by omega
  have hM : (c14 - 48) * 10 + (c15 - 48) ≤ 99 := by omega
  have hS : (c17 - 48) * 10 + (c18 - 48) ≤ 99 := by omega
  have hMo : (c5 - 48) * 10 + (c6 - 48) ≤ 99 := by omega
  have hD : (c8 - 48) * 10 + (c9 - 48) ≤ 99 := by omega
  have hY : (((c0 - 48) * 10 + (c1 - 48)) * 10 + (c2 - 48)) * 10 + (c3 - 48) ≤ 9999 := by omega
  simp only [emit, time_word, date_word, field, List.drop_succ_cons, List.drop_zero,
    List.take_succ_cons, List.take_zero, List.foldl_cons, List.foldl_nil, Nat.zero_mul,
    Nat.zero_add, List.append_assoc, List.singleton_append]
  generalize (c11 - 48) * 10 + (c12 - 48) = H at hH ⊢
  generalize (c14 - 48) * 10 + (c15 - 48) = M at hM ⊢
  generalize (c17 - 48) * 10 + (c18 - 48) = S at hS ⊢
  generalize (c5 - 48) * 10 + (c6 - 48) = Mo at hMo ⊢
  generalize (c8 - 48) * 10 + (c9 - 48) = D at hD ⊢
  generalize (((c0 - 48) * 10 + (c1 - 48)) * 10 + (c2 - 48)) * 10 + (c3 - 48) = Y at hY ⊢
  rw [wrap16_of_range (H : Int) (by omega) (by omega),
    wrap16_of_range (M : Int) (by omega) (by omega),
    wrap16_of_range (S : Int) (by omega) (by omega),
    wrap16_of_range (Mo : Int) (by omega) (by omega),
    wrap16_of_range (D : Int) (by omega) (by omega),
    wrap16_of_range ((Y : Int) - 1980) (by omega) (by omega),
    wrapInt32_of_range ((H : Int) * 65536) (by omega) (by omega),
    wrapInt32_of_range ((M : Int) * 256) (by omega) (by omega),
    wrapInt32_of_range ((Mo : Int) * 32) (by omega) (by omega),
    wrapInt32_of_range (((Y : Int) - 1980) * 512) (by omega) (by omega)]

/-- The sync loop, given polls that all find the baseline time and then a new timestamp:
with enough fuel for all of them it ends with `rc = 0`, having waited after every
unchanged poll and set the clock once from the new timestamp. -/
theorem sync_loop_run (h : Host) (tz : Int) (ts0 ds1 t1 : List Nat)
    (ht1 : isTimestamp t1 = true) (hfit1 : t1.length ≤ 127) (hne : cstr ts0 ≠ t1.take 19) :
    ∀ (polls : List (List Nat × List Nat)) (w : World) (ts1 : List Nat) (fuel : Nat),
      serves h w.rx_pos w.reads w.writes (polls ++ [(ds1, t1)]) = true →
      (∀ p ∈ polls, p.2.length ≤ 127 ∧ 19 ≤ p.2.length ∧ cstr (p.2.take 19) = cstr ts0) →
      polls.length + 1 ≤ fuel →
      ∃ w1, sync_loop h tz ts0 fuel ts1 w = some (0, w1) ∧
        w1.trace = w.trace ++ poll_events tz h.UART_OK polls ++
          query_events tz h.UART_OK ds1 t1 ++
          [Event.SETTIM2 (time_word t1), Event.SETDATE (date_word t1)] := by
  intro polls
  induction polls with
  | nil =>
    intro w ts1 fuel hs _ hfuel
    obtain ⟨f, rfl⟩ : ∃ f, fuel = f + 1 := ⟨fuel - 1, by simp at hfuel; omega⟩
    simpa [poll_events] using sync_loop_tick h w tz ts0 ts1 f ds1 t1 [] hs hfit1 ht1 hne
  | cons p ps ih =>
    intro w ts1 fuel hs hall hfuel
    obtain ⟨ds, body⟩ := p
    obtain ⟨f, rfl⟩ : ∃ f, fuel = f + 1 := ⟨fuel - 1, by simp at hfuel; omega⟩
    obtain ⟨hb1, hb2, hb3⟩ := hall (ds, body) (by simp)
    have hstr : strcmp_eq ts0 (blit (blit ts1 0 body) 19 [0]) = true := by
      unfold strcmp_eq
      rw [cstr_ts_buffer _ _ hb2, hb3]
      simp
    have hs2 : serves h (w.rx_pos + 14 + body.length) (w.reads + 2) (w.writes + 1)
        (ps ++ [(ds1, t1)]) = true := by
      simp only [List.cons_append, serves, Bool.and_eq_true] at hs
      exact hs.2
    unfold sync_loop
    simp only [rss_datetime_served h w tz ts1 127 ds body _ hs hb1, hstr]
    obtain ⟨w1, he, ht⟩ := ih (emit
      { rx_pos := w.rx_pos + 14 + body.length, reads := w.reads + 2, writes := w.writes + 1,
        fwrites := w.fwrites, response_buf := blit w.response_buf 0 (str "<|0200" ++ ds),
        trace := w.trace ++ query_events tz h.UART_OK ds body } Event.wait)
      (blit (blit ts1 0 body) 19 [0]) f hs2
      (fun q hq => hall q (by simp [hq])) (by simp at hfuel ⊢; omega)
    refine ⟨w1, by simpa using he, ?_⟩
    rw [ht]
    simp [emit, poll_events]

theorem poll_events_counts (tz ok : Int) (polls : List (List Nat × List Nat)) :
    (poll_events tz ok polls).countP Event.isQuery = polls.length ∧
    (poll_events tz ok polls).countP Event.isWait = polls.length ∧
    (poll_events tz ok polls).countP Event.isSetTime = 0 ∧
    (poll_events tz ok polls).countP Event.isSetDate = 0 := by
  induction polls with
  | nil => simp [poll_events]
  | cons p ps ih =>
    obtain ⟨ds, body⟩ := p
    obtain ⟨h1, h2, h3, h4⟩ := ih
    simp [poll_events, query_events, List.countP_append, List.countP_cons, Event.isQuery,
      Event.isWait, Event.isSetTime, Event.isSetDate, h1, h2, h3, h4]

/-- C8 (sync termination and correctness): in clock-sync mode, when the baseline query
returns a timestamp `t0`, the next `k` queries return bodies with the same first 19 bytes
and the query after them returns a timestamp `t1` whose first 19 bytes differ, the program,
given fuel for `k + 1` polls, makes exactly `k + 2` queries, waits exactly `k` times, calls
`SETTIM2` and `SETDATE` exactly once each, with the fields of `t1`, and exits with code
0. -/
theorem sync_terminates (h : Host) (argv : List (List Nat)) (o : Options) (fuel : Nat)
    (ds0 t0 ds1 t1 : List Nat) (polls : List (List Nat × List Nat))
    (hargs : parse_args (argv.drop 1) (default_options h) = some o)
    (hmode : o.datetime_sync_mode ≠ 0)
    (hbaud : getenv_int h "RSSN_SPEED" 38400 = 9600 ∨ getenv_int h "RSSN_SPEED" 38400 = 19200 ∨
      getenv_int h "RSSN_SPEED" 38400 = 38400)
    (hopen : h.uart_open_result = 0)
    (hserve : serves h 0 0 0 ((ds0, t0) :: polls ++ [(ds1, t1)]) = true)
    (ht0 : isTimestamp t0 = true) (ht1 : isTimestamp t1 = true)
    (hfit0 : t0.length ≤ 127) (hfit1 : t1.length ≤ 127)
    (hpolls : ∀ p ∈ polls, p.2.length ≤ 127 ∧ p.2.take 19 = t0.take 19)
    (hdiff : t1.take 19 ≠ t0.take 19)
    (hfuel : polls.length + 1 ≤ fuel) :
    ∃ w, main h fuel argv = some (0, w) ∧
      w.trace = Event.uart_open (getenv_int h "RSSN_SPEED" 38400) (getenv_int h "RSSN_TIMEOUT" 60) 0 ::
        (query_events o.tz h.UART_OK ds0 t0 ++ poll_events o.tz h.UART_OK polls ++
          query_events o.tz h.UART_OK ds1 t1 ++
          [Event.SETTIM2 (time_word t1), Event.SETDATE (date_word t1), Event.uart_close]) ∧
      w.trace.countP Event.isQuery = polls.length + 2 ∧
      w.trace.countP Event.isWait = polls.length ∧
      w.trace.countP Event.isSetTime = 1 ∧
      w.trace.countP Event.isSetDate = 1 := by
  have hl0 : 19 ≤ t0.length := by
    simp only [isTimestamp, Bool.and_eq_true, decide_eq_true_eq] at ht0
    exact ht0.1.1.1.1.1.1
  have hb : ¬ (getenv_int h "RSSN_SPEED" 38400 ≠ 9600 ∧ getenv_int h "RSSN_SPEED" 38400 ≠ 19200 ∧
      getenv_int h "RSSN_SPEED" 38400 ≠ 38400) := by
    rcases hbaud with e | e | e <;> simp [e]
  have hq := rss_datetime_served h
    { rx_pos := 0, reads := 0, writes := 0, fwrites := 0, response_buf := [],
      trace := [Event.uart_open (getenv_int h "RSSN_SPEED" 38400)
        (getenv_int h "RSSN_TIMEOUT" 60) 0] } o.tz h.ts0 127 ds0 t0 (polls ++ [(ds1, t1)])
    (by simpa using hserve) hfit0
  have hts0 : cstr (blit (blit h.ts0 0 t0) 19 [0]) = t0.take 19 := by
    rw [cstr_ts_buffer _ _ hl0, timestamp_cstr t0 ht0]
  have hs1 : serves h (0 + 14 + t0.length) (0 + 2) (0 + 1) (polls ++ [(ds1, t1)]) = true := by
    simp only [List.cons_append, serves, Bool.and_eq_true] at hserve
    exact hserve.2
  obtain ⟨w1, he, ht⟩ := sync_loop_run h o.tz (blit (blit h.ts0 0 t0) 19 [0]) ds1 t1 ht1 hfit1
    (by rw [hts0]; exact fun e => hdiff e.symm) polls
    { rx_pos := 0 + 14 + t0.length, reads := 0 + 2, writes := 0 + 1, fwrites := 0,
      response_buf := blit [] 0 (str "<|0200" ++ ds0),
      trace := [Event.uart_open (getenv_int h "RSSN_SPEED" 38400)
        (getenv_int h "RSSN_TIMEOUT" 60) h.uart_open_result] ++
        query_events o.tz h.UART_OK ds0 t0 } h.ts1 fuel hs1
    (by
      intro p hp
      obtain ⟨a, b⟩ := hpolls p hp
      refine ⟨a, ?_, ?_⟩
      · have : (p.2.take 19).length = 19 := by rw [b]; simp; omega
        simp at this; omega
      · rw [b, hts0, timestamp_cstr t0 ht0])
    hfuel
  have hrun : main h fuel argv = some (0, (cleanup (wrap16 (getenv_int h "RSSN_STDOUT" 0)) false
      o.output_file_name 0 w1).2) := by
    unfold main
    simp only [hargs, hb, if_false, hmode, false_and, hopen, ne_eq, not_true_eq_false,
      not_false_eq_true, if_true]
    simp only [emit, World.init, List.nil_append, hopen] at he ⊢
    simp only [hq, not_true_eq_false, if_false]
    simp only [List.singleton_append, Nat.zero_add] at he ⊢
    rw [he]
    simp [cleanup]
  refine ⟨_, hrun, ?_⟩
  have htr : (cleanup (wrap16 (getenv_int h "RSSN_STDOUT" 0)) false o.output_file_name 0 w1).2.trace =
      Event.uart_open (getenv_int h "RSSN_SPEED" 38400) (getenv_int h "RSSN_TIMEOUT" 60) 0 ::
        (query_events o.tz h.UART_OK ds0 t0 ++ poll_events o.tz h.UART_OK polls ++
          query_events o.tz h.UART_OK ds1 t1 ++
          [Event.SETTIM2 (time_word t1), Event.SETDATE (date_word t1), Event.uart_close]) := by
    simp [cleanup, emit, ht, hopen]
  obtain ⟨c1, c2, c3, c4⟩ := poll_events_counts o.tz h.UART_OK polls
  refine ⟨htr, ?_, ?_, ?_, ?_⟩ <;> rw [htr] <;>
    simp [query_events, List.countP_append, List.countP_cons, Event.isQuery,
      Event.isWait, Event.isSetTime, Event.isSetDate, c1, c2, c3, c4]

/-- Witness for C8: for the answers `T0, T0, T0, T1` the program makes 4 queries, waits
twice, sets time and date once each and exits with 0. -/
theorem sync_terminates_witness :
    ∃ w, main (exampleHost tickLine 0) 3 [str "rssnex", str "-t"] = some (0, w) ∧
      w.trace.countP Event.isQuery = 4 ∧ w.trace.countP Event.isWait = 2 ∧
      w.trace.countP Event.isSetTime = 1 ∧ w.trace.countP Event.isSetDate = 1 :=
  let ⟨w, h1, _, h3, h4, h5, h6⟩ :=
    sync_terminates (exampleHost tickLine 0) [str "rssnex", str "-t"]
      { quiet_mode := 1, datetime_sync_mode := 1, tz := 9, output_format := 0, rss_url := none,
        output_file_name := str "_R.D" } 3
      (str "00000013") (str "2023-08-22 10:00:00") (str "00000013") (str "2023-08-22 10:00:01")
      [(str "00000013", str "2023-08-22 10:00:00"), (str "00000013", str "2023-08-22 10:00:00")]
      (by decide) (by decide) (by decide) rfl (by decide) (by decide) (by decide) (by decide)
      (by decide) (by decide) (by decide) (by decide)
  ⟨w, h1, h3, h4, h5, h6⟩

/-- The calls of `rss_datetime`: one request write, then only reads. -/
theorem rss_datetime_calls (h : Host) (w : World) (tz : Int) (buf : List Nat) (buf_len : Nat) :
    ∃ evs, (rss_datetime h w tz buf buf_len).2.2.trace = w.trace ++ evs ∧
      evs.countP Event.isQuery = 1 ∧ evs.all Event.isTransport = true := by
  unfold rss_datetime
  simp only []
  split_ifs
  · exact ⟨[_], by simp [uart_write_snd, uart_read_world]; rfl, by simp [Event.isQuery],
      by simp [Event.isTransport]⟩
  · exact ⟨[_, _], by simp [uart_write_snd, uart_read_world]; exact ⟨rfl, rfl⟩,
      by simp [Event.isQuery], by simp [Event.isTransport]⟩
  · exact ⟨[_, _], by simp [uart_write_snd, uart_read_world]; exact ⟨rfl, rfl⟩,
      by simp [Event.isQuery], by simp [Event.isTransport]⟩
  · exact ⟨[_, _], by simp [uart_write_snd, uart_read_world]; exact ⟨rfl, rfl⟩,
      by simp [Event.isQuery], by simp [Event.isTransport]⟩
  · exact ⟨[_, _, _], by simp [uart_write_snd, uart_read_world]; exact ⟨rfl, rfl, rfl⟩,
      by simp [Event.isQuery], by simp [Event.isTransport]⟩
  · exact ⟨[_, _, _], by simp [uart_write_snd, uart_read_world]; exact ⟨rfl, rfl, rfl⟩,
      by simp [Event.isQuery], by simp [Event.isTransport]⟩

/-- A failing query is seen as such by the caller: `rss_datetime` returns a result other
than 0 (with `UART_OK = 0`, so that a failed read is not taken for success). -/
theorem rss_datetime_fails (h : Host) (w : World) (tz : Int) (buf : List Nat) (buf_len : Nat)
    (hok : h.UART_OK = 0) (hf : query_fails h w.rx_pos w.reads w.writes buf_len = true) :
    (rss_datetime h w tz buf buf_len).1 ≠ 0 := by
  by_cases hw : h.uart_write_result w.writes = 0
  swap
  · simp [rss_datetime, uart_write, hw]
  by_cases hr : h.uart_read_result w.reads = h.UART_OK
  swap
  · have : h.uart_read_result w.reads ≠ 0 := by rw [← hok]; exact hr
    simp [rss_datetime, uart_write, uart_read, hw, hr, this]
  by_cases hm : (line h w.rx_pos 14).take 6 = str "<|0200"
  swap
  · have hm2 := header_rejected w.response_buf (line h w.rx_pos 14) (by simp [line_length]) hm
    simp [rss_datetime, uart_write, uart_read, hw, hr, hm2]
  simp only [query_fails, hw, hr, hm, bne_self_eq_false, Bool.false_or, Bool.and_eq_true,
    Bool.or_eq_true, decide_eq_true_eq, List.all_eq_true, bne_iff_ne, ne_eq] at hf
  obtain ⟨hall, hcase⟩ := hf
  have hline : line h w.rx_pos 14 = str "<|0200" ++ (line h w.rx_pos 14).drop 6 := by
    conv_lhs => rw [← List.take_append_drop 6 (line h w.rx_pos 14), hm]
  have hlen : ((line h w.rx_pos 14).drop 6).length = 8 := by simp [line_length]
  obtain ⟨hm2, hs⟩ := header_accepted w.response_buf _ _ hline hlen hall
  rcases hcase with hbig | hr2
  · simp [rss_datetime, uart_write, uart_read, hw, hr, hm2, hs, hbig]
  · by_cases hbig : hexNum ((line h w.rx_pos 14).drop 6) > buf_len
    · simp [rss_datetime, uart_write, uart_read, hw, hr, hm2, hs, hbig]
    · have : h.uart_read_result (w.reads + 1) ≠ 0 := by rw [← hok]; exact hr2
      simp [rss_datetime, uart_write, uart_read, hw, hr, hm2, hs, hbig, hr2, this]

/-- The sync loop, given polls that all find the baseline time and then a query that
fails: it ends at the failing query with `rc = -1`. -/
theorem sync_loop_fails (h : Host) (tz : Int) (ts0 : List Nat) (hok : h.UART_OK = 0) :
    ∀ (polls : List (List Nat × List Nat)) (w : World) (ts1 : List Nat) (fuel : Nat),
      serves h w.rx_pos w.reads w.writes polls = true →
      (∀ p ∈ polls, p.2.length ≤ 127 ∧ 19 ≤ p.2.length ∧ cstr (p.2.take 19) = cstr ts0) →
      query_fails h (line_after w.rx_pos polls) (w.reads + 2 * polls.length)
        (w.writes + polls.length) 127 = true →
      polls.length + 1 ≤ fuel →
      ∃ w1 evs, sync_loop h tz ts0 fuel ts1 w = some (-1, w1) ∧
        w1.trace = w.trace ++ poll_events tz h.UART_OK polls ++ evs ∧
        evs.countP Event.isQuery = 1 ∧ evs.all Event.isTransport = true := by
  intro polls
  induction polls with
  | nil =>
    intro w ts1 fuel _ _ hf hfuel
    obtain ⟨f, rfl⟩ : ∃ f, fuel = f + 1 := ⟨fuel - 1, by simp at hfuel; omega⟩
    have hne := rss_datetime_fails h w tz ts1 127 hok (by simpa [line_after] using hf)
    obtain ⟨evs, he, hc, ht⟩ := rss_datetime_calls h w tz ts1 127
    unfold sync_loop
    simp only [hne, ne_eq, not_false_eq_true, if_true]
    exact ⟨_, evs, rfl, by simpa [poll_events] using he, hc, ht⟩
  | cons p ps ih =>
    intro w ts1 fuel hs hall hf hfuel
    obtain ⟨ds, body⟩ := p
    obtain ⟨f, rfl⟩ : ∃ f, fuel = f + 1 := ⟨fuel - 1, by simp at hfuel; omega⟩
    obtain ⟨hb1, hb2, hb3⟩ := hall (ds, body) (by simp)
    have hstr : strcmp_eq ts0 (blit (blit ts1 0 body) 19 [0]) = true := by
      unfold strcmp_eq
      rw [cstr_ts_buffer _ _ hb2, hb3]
      simp
    have hs2 : serves h (w.rx_pos + 14 + body.length) (w.reads + 2) (w.writes + 1) ps = true := by
      simp only [serves, Bool.and_eq_true] at hs
      exact hs.2
    have e1 : w.reads + 2 * (ps.length + 1) = w.reads + 2 + 2 * ps.length := by omega
    have e2 : w.writes + (ps.length + 1) = w.writes + 1 + ps.length := by omega
    simp only [line_after, List.length_cons, e1, e2] at hf
    unfold sync_loop
    simp only [rss_datetime_served h w tz ts1 127 ds body _ hs hb1, hstr]
    obtain ⟨w1, evs, he, ht, hc, hq⟩ := ih (emit
      { rx_pos := w.rx_pos + 14 + body.length, reads := w.reads + 2, writes := w.writes + 1,
        fwrites := w.fwrites, response_buf := blit w.response_buf 0 (str "<|0200" ++ ds),
        trace := w.trace ++ query_events tz h.UART_OK ds body } Event.wait)
      (blit (blit ts1 0 body) 19 [0]) f hs2
      (fun q hq => hall q (by simp [hq])) hf (by simp at hfuel ⊢; omega)
    refine ⟨w1, evs, by simpa using he, ?_, hc, hq⟩
    rw [ht]
    simp [emit, poll_events]

theorem countP_of_all_transport (evs : List Event) (h : evs.all Event.isTransport = true) :
    evs.countP Event.isWait = 0 ∧ evs.countP Event.isSetTime = 0 ∧
    evs.countP Event.isSetDate = 0 := by
  induction evs with
  | nil => simp
  | cons e es ih =>
    simp only [List.all_cons, Bool.and_eq_true] at h
    obtain ⟨a, b, c⟩ := ih h.2
    cases e <;> simp_all [Event.isTransport, Event.isWait, Event.isSetTime, Event.isSetDate,
      List.countP_cons]

/-- C9 (sync failure is terminal): in clock-sync mode, when the baseline query fails, or
when the baseline and `k ≥ 0` polls find the same time and the next query fails (failed
write or read, a header other than `<|0200`, or an oversized length), the failing query
is the last transport call: the program only closes the transport and deletes the output
file name, never calls `SETTIM2` or `SETDATE`, and exits with -1. -/
theorem sync_failure_terminal (h : Host) (argv : List (List Nat)) (o : Options) (fuel : Nat)
    (hargs : parse_args (argv.drop 1) (default_options h) = some o)
    (hmode : o.datetime_sync_mode ≠ 0)
    (hbaud : getenv_int h "RSSN_SPEED" 38400 = 9600 ∨ getenv_int h "RSSN_SPEED" 38400 = 19200 ∨
      getenv_int h "RSSN_SPEED" 38400 = 38400)
    (hopen : h.uart_open_result = 0) (hok : h.UART_OK = 0) :
    (query_fails h 0 0 0 127 = true →
      ∃ w evs, main h fuel argv = some (-1, w) ∧
        w.trace = Event.uart_open (getenv_int h "RSSN_SPEED" 38400)
            (getenv_int h "RSSN_TIMEOUT" 60) 0 ::
          (evs ++ [Event.uart_close, Event.DELETE o.output_file_name]) ∧
        evs.countP Event.isQuery = 1 ∧ evs.all Event.isTransport = true ∧
        w.trace.countP Event.isQuery = 1 ∧
        w.trace.countP Event.isSetTime = 0 ∧ w.trace.countP Event.isSetDate = 0) ∧
    (∀ (ds0 t0 : List Nat) (polls : List (List Nat × List Nat)),
      serves h 0 0 0 ((ds0, t0) :: polls) = true →
      t0.length ≤ 127 → 19 ≤ t0.length →
      (∀ p ∈ polls, p.2.length ≤ 127 ∧ p.2.take 19 = t0.take 19) →
      query_fails h (line_after 0 ((ds0, t0) :: polls)) (2 * (polls.length + 1))
        (polls.length + 1) 127 = true →
      polls.length + 1 ≤ fuel →
      ∃ w evs, main h fuel argv = some (-1, w) ∧
        w.trace = Event.uart_open (getenv_int h "RSSN_SPEED" 38400)
            (getenv_int h "RSSN_TIMEOUT" 60) 0 ::
          (query_events o.tz h.UART_OK ds0 t0 ++ poll_events o.tz h.UART_OK polls ++ evs ++
            [Event.uart_close, Event.DELETE o.output_file_name]) ∧
        evs.countP Event.isQuery = 1 ∧ evs.all Event.isTransport = true ∧
        w.trace.countP Event.isQuery = polls.length + 2 ∧
        w.trace.countP Event.isSetTime = 0 ∧ w.trace.countP Event.isSetDate = 0) := by
  have hb : ¬ (getenv_int h "RSSN_SPEED" 38400 ≠ 9600 ∧ getenv_int h "RSSN_SPEED" 38400 ≠ 19200 ∧
      getenv_int h "RSSN_SPEED" 38400 ≠ 38400) := by
    rcases hbaud with e | e | e <;> simp [e]
  constructor
  · intro hf
    have hne := rss_datetime_fails h
      { rx_pos := 0, reads := 0, writes := 0, fwrites := 0, response_buf := [],
        trace := [Event.uart_open (getenv_int h "RSSN_SPEED" 38400)
          (getenv_int h "RSSN_TIMEOUT" 60) 0] } o.tz h.ts0 127 hok hf
    obtain ⟨evs, he, hc, ht⟩ := rss_datetime_calls h
      { rx_pos := 0, reads := 0, writes := 0, fwrites := 0, response_buf := [],
        trace := [Event.uart_open (getenv_int h "RSSN_SPEED" 38400)
          (getenv_int h "RSSN_TIMEOUT" 60) 0] } o.tz h.ts0 127
    obtain ⟨_, c2, c3⟩ := countP_of_all_transport evs ht
    have hrun : main h fuel argv = some (cleanup (wrap16 (getenv_int h "RSSN_STDOUT" 0)) false
        o.output_file_name (-1) (rss_datetime h
          { rx_pos := 0, reads := 0, writes := 0, fwrites := 0, response_buf := [],
            trace := [Event.uart_open (getenv_int h "RSSN_SPEED" 38400)
              (getenv_int h "RSSN_TIMEOUT" 60) 0] } o.tz h.ts0 127).2.2) := by
      unfold main
      simp only [hargs, hb, if_false, hmode, false_and, hopen, ne_eq, not_true_eq_false,
        not_false_eq_true, if_true]
      simp only [emit, World.init, List.nil_append]
      simp only [hne, not_false_eq_true, if_true]
    refine ⟨_, evs, hrun, ?_, hc, ht, ?_, ?_, ?_⟩
    all_goals simp [cleanup, emit, he, List.countP_append, List.countP_cons, Event.isQuery,
      Event.isSetTime, Event.isSetDate, hc, c2, c3]
  · intro ds0 t0 polls hserve hfit0 hl0 hpolls hf hfuel
    have hq := rss_datetime_served h
      { rx_pos := 0, reads := 0, writes := 0, fwrites := 0, response_buf := [],
        trace := [Event.uart_open (getenv_int h "RSSN_SPEED" 38400)
          (getenv_int h "RSSN_TIMEOUT" 60) 0] } o.tz h.ts0 127 ds0 t0 polls hserve hfit0
    have hts0 : cstr (blit (blit h.ts0 0 t0) 19 [0]) = cstr (t0.take 19) :=
      cstr_ts_buffer _ _ hl0
    have hs1 : serves h (0 + 14 + t0.length) (0 + 2) (0 + 1) polls = true := by
      simp only [serves, Bool.and_eq_true] at hserve
      exact hserve.2
    have e1 : 2 * (polls.length + 1) = 0 + 2 + 2 * polls.length := by omega
    have e2 : polls.length + 1 = 0 + 1 + polls.length := by omega
    rw [e1] at hf
    rw [e2] at hf
    simp only [line_after] at hf
    obtain ⟨w1, evs, he, ht, hc, hq2⟩ := sync_loop_fails h o.tz (blit (blit h.ts0 0 t0) 19 [0]) hok
      polls
      { rx_pos := 0 + 14 + t0.length, reads := 0 + 2, writes := 0 + 1, fwrites := 0,
        response_buf := blit [] 0 (str "<|0200" ++ ds0),
        trace := [Event.uart_open (getenv_int h "RSSN_SPEED" 38400)
          (getenv_int h "RSSN_TIMEOUT" 60) 0] ++ query_events o.tz h.UART_OK ds0 t0 }
      h.ts1 fuel hs1
      (by
        intro p hp
        obtain ⟨a, b⟩ := hpolls p hp
        refine ⟨a, ?_, ?_⟩
        · have : (p.2.take 19).length = 19 := by rw [b]; simp; omega
          simp at this; omega
        · rw [b, hts0])
      hf hfuel
    have hrun : main h fuel argv = some (cleanup (wrap16 (getenv_int h "RSSN_STDOUT" 0)) false
        o.output_file_name (-1) w1) := by
      unfold main
      simp only [hargs, hb, if_false, hmode, false_and, hopen, ne_eq, not_true_eq_false,
        not_false_eq_true, if_true]
      simp only [emit, World.init, List.nil_append]
      simp only [hq, not_true_eq_false, if_false]
      simp only [List.singleton_append, Nat.zero_add] at he ⊢
      rw [he]
    obtain ⟨_, c2, c3⟩ := countP_of_all_transport evs hq2
    obtain ⟨p1, _, p3, p4⟩ := poll_events_counts o.tz h.UART_OK polls
    refine ⟨_, evs, hrun, ?_, hc, hq2, ?_, ?_, ?_⟩
    all_goals simp [cleanup, emit, ht, List.countP_append, List.countP_cons, Event.isQuery,
      Event.isSetTime, Event.isSetDate, hc, c2, c3, p1, p3, p4, query_events]

/-- Witness for C9: the baseline query is answered with status `0404`; and after the
answers `T0, T0, T0` the next query gets no answer (its header read times out). -/
theorem sync_failure_terminal_witness :
    (∃ w evs, main (exampleHost (str "<|040400000000") 0) 3 [str "rssnex", str "-t"] =
        some (-1, w) ∧
      w.trace = Event.uart_open 38400 60 0 ::
        (evs ++ [Event.uart_close, Event.DELETE (str "_R.D")]) ∧
      w.trace.countP Event.isQuery = 1 ∧
      w.trace.countP Event.isSetTime = 0 ∧ w.trace.countP Event.isSetDate = 0) ∧
    (∃ w, main (failingHost tickLine (fun _ => 0) (fun k => if k = 6 then 3 else 0)) 3
        [str "rssnex", str "-t"] = some (-1, w) ∧
      w.trace.countP Event.isQuery = 4 ∧
      w.trace.countP Event.isSetTime = 0 ∧ w.trace.countP Event.isSetDate = 0) :=
  ⟨(let ⟨w, evs, h1, h2, _, _, h5, h6, h7⟩ :=
      (sync_failure_terminal (exampleHost (str "<|040400000000") 0) [str "rssnex", str "-t"]
        { quiet_mode := 1, datetime_sync_mode := 1, tz := 9, output_format := 0, rss_url := none,
          output_file_name := str "_R.D" } 3
        (by decide) (by decide) (by decide) rfl rfl).1 (by decide)
    ⟨w, evs, h1, h2, h5, h6, h7⟩),
   (let ⟨w, _, h1, _, _, _, h5, h6, h7⟩ :=
      (sync_failure_terminal (failingHost tickLine (fun _ => 0) (fun k => if k = 6 then 3 else 0))
        [str "rssnex", str "-t"]
        { quiet_mode := 1, datetime_sync_mode := 1, tz := 9, output_format := 0, rss_url := none,
          output_file_name := str "_R.D" } 3
        (by decide) (by decide) (by decide) rfl rfl).2
        (str "00000013") (str "2023-08-22 10:00:00")
        [(str "00000013", str "2023-08-22 10:00:00"), (str "00000013", str "2023-08-22 10:00:00")]
        (by decide) (by decide) (by decide) (by decide) (by decide) (by decide)
    ⟨w, h1, h5, h6, h7⟩)⟩

/-! ## Failure of the request write -/

/-- C10 (failure of the request write), the code at the failing input: `uart_write`
returns the timeout code 3 when the request is sent. `rss_download_channel` returns -1,
not the timeout code, although a timeout of the header read in the same function is
returned as 3. The write is the only call: no read, no write to the output file, no
second write. `main` does not tell -1 from success: the exit code is 0 and the empty
output file `_R.D` is closed and kept, no `DELETE` is issued. -/
theorem write_timeout_returns_minus_one :
    (failingHost [] (fun _ => 3) (fun _ => 0)).uart_write_result World.init.writes =
      (failingHost [] (fun _ => 3) (fun _ => 0)).UART_TIMEOUT ∧
    (rss_download_channel (failingHost [] (fun _ => 3) (fun _ => 0)) World.init
        (str "http://example/feed") 0).map (fun r => (r.1, r.2.trace)) =
      some (-1, [Event.uart_write (str ">|00000021/openbbs?link=http://example/feed") 3]) ∧
    (rss_download_channel (failingHost [] (fun _ => 3) (fun _ => 0)) World.init
        (str "http://example/feed") 0).map (fun r => r.1) ≠
      some (failingHost [] (fun _ => 3) (fun _ => 0)).UART_TIMEOUT ∧
    (rss_download_channel (failingHost [] (fun _ => 0) (fun _ => 3)) World.init
        (str "http://example/feed") 0).map (fun r => r.1) =
      some (failingHost [] (fun _ => 0) (fun _ => 3)).UART_TIMEOUT ∧
    (main (failingHost [] (fun _ => 3) (fun _ => 0)) 0
        [str "rssnex", str "http://example/feed"]).map (fun r => (r.1, r.2.trace)) =
      some (0, [Event.uart_open 38400 60 0, Event.fopen (str "_R.D") true,
        Event.uart_write (str ">|00000021/openbbs?link=http://example/feed") 3,
        Event.fclose, Event.uart_close]) := by
  refine ⟨by decide, by decide, by decide, by decide, by decide⟩

/-- Every failure of the request write looks the same to the caller: for every result
`r` other than 0 returned by `uart_write` when the request is sent,
`rss_download_channel` returns -1 and the write is its only call. -/
theorem request_write_failure (h : Host) (w : World) (rss_url : List Nat)
    (output_format : Int) (hw : h.uart_write_result w.writes ≠ 0) :
    rss_download_channel h w rss_url output_format =
      some (-1, { w with writes := w.writes + 1,
                         trace := w.trace ++ [Event.uart_write
                           (download_request output_format rss_url)
                           (h.uart_write_result w.writes)] }) := by
  simp [rss_download_channel, uart_write, hw]

/-- Example for `request_write_failure`: a cancelled request write (result 2). -/
theorem request_write_failure_example :
    rss_download_channel (failingHost [] (fun _ => 2) (fun _ => 0)) World.init
        (str "http://example/feed") 0 =
      some (-1, { World.init with writes := World.init.writes + 1,
                                  trace := World.init.trace ++ [Event.uart_write
                                    (download_request 0 (str "http://example/feed"))
                                    ((failingHost [] (fun _ => 2) (fun _ => 0)).uart_write_result
                                      World.init.writes)] }) :=
  request_write_failure (failingHost [] (fun _ => 2) (fun _ => 0)) World.init
    (str "http://example/feed") 0 (by decide)

/-! ## The transmit buffer -/

set_option maxRecDepth 100000 in
/-- C11 (transmit-buffer limit), the code at the failing input: for a URL of 500 bytes
`a` the request string needs 525 bytes, 13 more than `request_buf` holds. Nothing fails:
all 525 bytes are stored, and the 524-byte request is handed to `uart_write`. -/
theorem long_url_is_sent :
    request_stored 0 (List.replicate 500 97) = 525 ∧
    (rss_download_channel (exampleHost [] 0) World.init (List.replicate 500 97) 0).map
        (fun r => r.2.trace.head?) =
      some (some (Event.uart_write
        (str ">|00000202/openbbs?link=" ++ List.replicate 500 97) 0)) := by
  constructor <;> decide

/-! ## Malformed length fields -/

/-- C12 (malformed length), the code at the failing inputs. After `<|0200zzzzzzzz` no
number is scanned and `response_size` keeps the value found in the unassigned local, here
5: both operations go on to read a body of 5 bytes and return 0 (the download writes
`hello` to the output file). After `<|020012zz5678` the scan stops at `z` and a body of
0x12 = 18 bytes is read. Nothing is rejected. -/
theorem malformed_length_is_not_rejected :
    (rss_download_channel (garbageHost (str "<|0200zzzzzzzzhello") 5) World.init
        (str "http://example/feed") 0).map
        (fun r => (r.1, read_lengths r.2.trace, sink_bytes r.2.trace)) =
      some (0, [14, 5], str "hello") ∧
    ((rss_datetime (garbageHost (str "<|0200zzzzzzzzhello") 5) World.init 9 [] 127).1,
      read_lengths (rss_datetime (garbageHost (str "<|0200zzzzzzzzhello") 5) World.init 9 []
        127).2.2.trace) = (0, [14, 5]) ∧
    (rss_download_channel (exampleHost (str "<|020012zz5678abcdefghijklmnopqr") 18) World.init
        (str "http://example/feed") 0).map
        (fun r => (r.1, read_lengths r.2.trace, sink_bytes r.2.trace)) =
      some (0, [14, 18], str "abcdefghijklmnopqr") ∧
    ((rss_datetime (exampleHost (str "<|020012zz5678abcdefghijklmnopqr") 18) World.init 9 []
        127).1,
      read_lengths (rss_datetime (exampleHost (str "<|020012zz5678abcdefghijklmnopqr") 18)
        World.init 9 [] 127).2.2.trace) = (0, [14, 18]) := by
  refine ⟨?_, ?_, ?_, ?_⟩ <;> decide

/-! ## Request paths -/

theorem scanDec_digits (ds : List Nat) (h : ∀ c ∈ ds, isDigit c = true) :
    ∀ acc, scanDec ds acc = ds.foldl (fun a c => a * 10 + (c - 48)) acc := by
  induction ds with
  | nil => intro acc; rfl
  | cons c cs ih =>
    intro acc
    have hc := h c (by simp)
    simp only [isDigit, Bool.and_eq_true, decide_eq_true_eq] at hc
    have hd : decValue c = some (c - 48) := by simp [decValue]; omega
    simp [scanDec, hd, ih (fun x hx => h x (by simp [hx]))]

theorem decDigits_value : ∀ (fuel n : Nat), 0 < fuel → n < 10 ^ fuel →
    (decDigits fuel n).foldl (fun a c => a * 10 + (c - 48)) 0 = n := by
  intro fuel
  induction fuel with
  | zero => intro n h; omega
  | succ k ih =>
    intro n _ hn
    unfold decDigits
    by_cases h10 : n < 10
    · simp [h10]
    · simp only [h10, if_false]
      have hk : 0 < k := by
        rcases Nat.eq_zero_or_pos k with h0 | h0
        · subst h0; simp at hn; omega
        · exact h0
      have hdiv : n / 10 < 10 ^ k := by
        rw [pow_succ] at hn
        exact Nat.div_lt_of_lt_mul (by omega)
      rw [List.foldl_append, ih (n / 10) hk hdiv]
      simp
      omega

/-- Reading back with `atoi` what `sprintf` printed with `%d` gives the number. -/
theorem atoi_sprintf_d (v : Int) (h1 : -32768 ≤ v) (h2 : v ≤ 32767) :
    atoi (sprintf_d v) = v := by
  obtain ⟨n, hn⟩ : ∃ n : Nat, v.natAbs = n := ⟨_, rfl⟩
  have hvn : v = (n : Int) ∨ v = -(n : Int) := by omega
  obtain ⟨_, hpos, hdig⟩ := decDigits_spec 10 v.natAbs (by norm_num) (by norm_num; omega)
  have hval := decDigits_value 10 v.natAbs (by norm_num) (by norm_num; omega)
  have hisd : ∀ c ∈ decDigits 10 v.natAbs, isDigit c = true := by
    intro c hc
    have := hdig c hc
    simp [isDigit]; omega
  obtain ⟨_, _, hnz⟩ := sprintf_d_spec v h1 h2
  obtain ⟨c0, cs, hcs⟩ : ∃ c0 cs, decDigits 10 v.natAbs = c0 :: cs := by
    cases hd : decDigits 10 v.natAbs with
    | nil => rw [hd] at hpos; simp at hpos
    | cons a b => exact ⟨a, b, rfl⟩
  have hc0 := hdig c0 (by rw [hcs]; simp)
  have hsp0 : isspace c0 = false := by simp [isspace]; omega
  unfold atoi
  rw [cstr_of_nonzero _ hnz]
  unfold sprintf_d
  by_cases hneg : v < 0
  · simp only [hneg, if_true]
    have hsp : isspace 45 = false := by decide
    simp only [hn] at hisd hval ⊢
    simp [List.dropWhile_cons, hsp, scanDec_digits _ hisd, hval, wrapInt32]
    omega
  · simp only [hneg, if_false]
    simp only [hn] at hcs
    simp only [hn] at hisd hval ⊢
    rw [hcs] at hisd hval ⊢
    have h45 : c0 ≠ 45 := by omega
    have h43 : c0 ≠ 43 := by omega
    simp [List.dropWhile_cons, hsp0, h45, h43, scanDec_digits _ hisd, wrapInt32]
    simp at hval
    rw [hval]
    omega

/-- C13 (request path selection and verbatim embedding): for every URL whose request fits
the 512-byte buffer, the bytes of the download request after the 10-byte header are
`/dshell?link=` and the URL when `output_format` is 1, and `/openbbs?link=` and the URL
for every other value, the URL being copied as it is; for every time zone offset the
bytes of the date-time request after the header are `/datetime?tz=` and the number as
`%d` prints it: a `-` for a negative number and decimal digits, which `atoi` reads back
as the same number. -/
theorem request_path_selection (h : Host) (w : World) (output_format tz : Int) (u : List Nat)
    (buf : List Nat) (buf_len : Nat)
    (hfit : 10 + (download_path output_format).length + strlen u + 1 ≤ 512) :
    (∃ rc w1 rest, rss_download_channel h w u output_format = some (rc, w1) ∧
      w1.trace = w.trace ++ Event.uart_write (download_request output_format u)
        (h.uart_write_result w.writes) :: rest) ∧
    (∃ rest, (rss_datetime h w tz buf buf_len).2.2.trace =
      w.trace ++ Event.uart_write (datetime_request tz) (h.uart_write_result w.writes) :: rest) ∧
    (download_request output_format u).drop 10 =
      (if output_format = 1 then str "/dshell?link=" else str "/openbbs?link=") ++ cstr u ∧
    ((∀ c ∈ u, c ≠ 0) → (download_request output_format u).drop 10 =
      (if output_format = 1 then str "/dshell?link=" else str "/openbbs?link=") ++ u) ∧
    (datetime_request tz).drop 10 = str "/datetime?tz=" ++ sprintf_d (wrap16 tz) ∧
    sprintf_d (wrap16 tz) =
      (if wrap16 tz < 0 then [45] else []) ++ decDigits 10 (wrap16 tz).natAbs ∧
    (∀ c ∈ decDigits 10 (wrap16 tz).natAbs, isDigit c = true) ∧
    atoi (sprintf_d (wrap16 tz)) = wrap16 tz ∧
    (-32768 ≤ tz → tz ≤ 32767 → wrap16 tz = tz) := by
  obtain ⟨r1, r2⟩ := wrap16_range tz
  have h2 : (str ">|").length = 2 := by decide
  have hd : (download_request output_format u).drop 10 = download_path output_format ++ cstr u := by
    rw [download_request_eq output_format u (by omega)]
    apply List.drop_left'
    simp [h2, (sprintf_08x_spec _ (by omega : (download_path output_format).length + strlen u <
      4294967296)).1]
  have hp : download_path output_format =
      (if output_format = 1 then str "/dshell?link=" else str "/openbbs?link=") := rfl
  refine ⟨rss_download_channel_sends h w u output_format, rss_datetime_sends h w tz buf buf_len,
    by rw [hd, hp], ?_, ?_, ?_, ?_, atoi_sprintf_d _ r1 r2, wrap16_of_range tz⟩
  · intro hnz
    rw [hd, hp, cstr_of_nonzero u hnz]
  · rw [datetime_request_eq]
    apply List.drop_left'
    obtain ⟨a, _, _⟩ := sprintf_d_spec (wrap16 tz) r1 r2
    simp [h2, (sprintf_08x_spec (13 + (sprintf_d (wrap16 tz)).length) (by omega)).1]
  · unfold sprintf_d
    split_ifs <;> simp
  · intro c hc
    have := (decDigits_spec 10 (wrap16 tz).natAbs (by norm_num) (by norm_num; omega)).2.2 c hc
    simp [isDigit]; omega

/-- Witness for C13: the two download paths for `http://example/feed` and the queries for
the time zones 9 and -12. -/
theorem request_path_selection_witness :
    (download_request 1 (str "http://example/feed")).drop 10 =
      str "/dshell?link=http://example/feed" ∧
    (download_request 0 (str "http://example/feed")).drop 10 =
      str "/openbbs?link=http://example/feed" ∧
    (datetime_request 9).drop 10 = str "/datetime?tz=9" ∧
    (datetime_request (-12)).drop 10 = str "/datetime?tz=-12" :=
  ⟨(request_path_selection (exampleHost [] 0) World.init 1 9 (str "http://example/feed") [] 127
      (by decide)).2.2.2.1 (by decide),
   (request_path_selection (exampleHost [] 0) World.init 0 9 (str "http://example/feed") [] 127
      (by decide)).2.2.2.1 (by decide),
   (request_path_selection (exampleHost [] 0) World.init 0 9 (str "http://example/feed") [] 127
      (by decide)).2.2.2.2.1,
   (request_path_selection (exampleHost [] 0) World.init 0 (-12) (str "http://example/feed") []
      127 (by decide)).2.2.2.2.1⟩

/-! ## The download capacity -/

/-- C14 as stated fails: headers declaring 0x1fff1 = 131057 and 0x1fff2 = 131058 bytes,
both within 131072 - 14, are refused: `rss_download_channel` returns -1 and reads nothing
after the 14 header bytes. -/
theorem length_131057_is_refused :
    hexNum (str "0001fff1") = 131057 ∧ hexNum (str "0001fff2") = 131058 ∧
    (rss_download_channel (exampleHost (str "<|02000001fff1") 1) World.init
        (str "http://example/feed") 0).map (fun r => (r.1, read_lengths r.2.trace)) =
      some (-1, [14]) ∧
    (rss_download_channel (exampleHost (str "<|02000001fff2") 1) World.init
        (str "http://example/feed") 0).map (fun r => (r.1, read_lengths r.2.trace)) =
      some (-1, [14]) := by
  refine ⟨?_, ?_, ?_, ?_⟩ <;> decide

/-- C14 (amended): the download test is `L > 131072 - 16`. After a `<|0200` header whose
eight digits denote `L`, `rss_download_channel` goes on to read a body of `L` bytes when
`L ≤ 131056`, and returns -1 without reading a body exactly when `L > 131056`; so
`L = 131057` and `L = 131058` are refused. -/
theorem download_capacity (h : Host) (w : World) (rss_url : List Nat) (output_format : Int)
    (ds : List Nat)
    (hw : h.uart_write_result w.writes = 0)
    (hr : h.uart_read_result w.reads = h.UART_OK)
    (hline : line h w.rx_pos 14 = str "<|0200" ++ ds) (hlen : ds.length = 8)
    (hall : ∀ c ∈ ds, isHexDigit c = true) :
    (hexNum ds ≤ 131056 →
      (rss_download_channel h w rss_url output_format).map (fun r => read_lengths r.2.trace) =
        some (read_lengths w.trace ++ [14, hexNum ds])) ∧
    (131056 < hexNum ds →
      (rss_download_channel h w rss_url output_format).map
          (fun r => (r.1, read_lengths r.2.trace)) =
        some (-1, read_lengths w.trace ++ [14])) ∧
    ((rss_download_channel h w rss_url output_format).map (fun r => read_lengths r.2.trace) =
        some (read_lengths w.trace ++ [14]) ↔ 131056 < hexNum ds) := by
  obtain ⟨hm, hs⟩ := header_accepted w.response_buf ds _ hline hlen hall
  rw [hline] at hm hs
  have hsmall : hexNum ds ≤ 131056 →
      (rss_download_channel h w rss_url output_format).map (fun r => read_lengths r.2.trace) =
        some (read_lengths w.trace ++ [14, hexNum ds]) := by
    intro hb
    by_cases hr2 : h.uart_read_result (w.reads + 1) = h.UART_OK
    · simp [rss_download_channel, uart_read, uart_write, hw, hr, hline, hm, hs, hr2,
        Nat.not_lt.mpr hb, fwrite_loop_start, line_length, read_lengths_append, read_lengths,
        read_lengths_loop_events]
    · simp [rss_download_channel, uart_read, uart_write, hw, hr, hline, hm, hs, hr2,
        Nat.not_lt.mpr hb, line_length, read_lengths_append, read_lengths]
  have hbig : 131056 < hexNum ds →
      (rss_download_channel h w rss_url output_format).map
          (fun r => (r.1, read_lengths r.2.trace)) =
        some (-1, read_lengths w.trace ++ [14]) := by
    intro hb
    simp [rss_download_channel, uart_read, uart_write, hw, hr, hline, hm, hs, hb,
      read_lengths_append, read_lengths]
  refine ⟨hsmall, hbig, ?_, ?_⟩
  · intro he
    by_contra hnot
    rw [hsmall (Nat.not_lt.mp hnot)] at he
    simp at he
  · intro hb
    have := hbig hb
    simp only [Option.map_eq_some', Prod.mk.injEq] at this ⊢
    obtain ⟨a, ha, _, hb2⟩ := this
    exact ⟨a, ha, hb2⟩

/-- Witness for C14 (amended): 0x1fff0 = 131056 bytes are read, 0x1fff1 = 131057 are
refused. -/
theorem download_capacity_witness :
    (rss_download_channel (exampleHost (str "<|02000001fff0") 1) World.init
        (str "http://example/feed") 0).map (fun r => read_lengths r.2.trace) =
      some (read_lengths World.init.trace ++ [14, hexNum (str "0001fff0")]) ∧
    (rss_download_channel (exampleHost (str "<|02000001fff1") 1) World.init
        (str "http://example/feed") 0).map (fun r => (r.1, read_lengths r.2.trace)) =
      some (-1, read_lengths World.init.trace ++ [14]) :=
  ⟨(download_capacity (exampleHost (str "<|02000001fff0") 1) World.init
      (str "http://example/feed") 0 (str "0001fff0") rfl rfl (by decide) (by decide)
      (by decide)).1 (by decide),
   (download_capacity (exampleHost (str "<|02000001fff1") 1) World.init
      (str "http://example/feed") 0 (str "0001fff1") rfl rfl (by decide) (by decide)
      (by decide)).2.1 (by decide)⟩

/-! ## Exit code in download mode -/

/-- The run of `main` in download mode once the exchange is reached: the result of
`rss_download_channel` decides the exit code and whether the file is deleted. -/
theorem main_download (h : Host) (argv : List (List Nat)) (o : Options) (fuel : Nat)
    (u : List Nat)
    (hargs : parse_args (argv.drop 1) (default_options h) = some o)
    (hmode : o.datetime_sync_mode = 0) (hurl : o.rss_url = some u)
    (hbaud : getenv_int h "RSSN_SPEED" 38400 = 9600 ∨ getenv_int h "RSSN_SPEED" 38400 = 19200 ∨
      getenv_int h "RSSN_SPEED" 38400 = 38400)
    (hopen : h.uart_open_result = 0)
    (hfo : wrap16 (getenv_int h "RSSN_STDOUT" 0) ≠ 0 ∨ h.fopen_ok = true)
    (r : Int) (w1 : World)
    (hx : rss_download_channel h (download_start h o) u o.output_format = some (r, w1)) :
    main h fuel argv =
      if r = h.UART_QUIT ∨ r = h.UART_EXIT ∨ r = h.UART_TIMEOUT then
        some (-1, { w1 with trace := w1.trace ++ closing_events h ++
          [Event.DELETE o.output_file_name] })
      else some (0, { w1 with trace := w1.trace ++ closing_events h }) := by
  have hb : ¬ (getenv_int h "RSSN_SPEED" 38400 ≠ 9600 ∧ getenv_int h "RSSN_SPEED" 38400 ≠ 19200 ∧
      getenv_int h "RSSN_SPEED" 38400 ≠ 38400) := by
    rcases hbaud with e | e | e <;> simp [e]
  unfold main
  simp only [hargs, hb, if_false, hmode, hurl, hopen, ne_eq, not_true_eq_false, if_true,
    Option.getD_some]
  by_cases hst : wrap16 (getenv_int h "RSSN_STDOUT" 0) = 0
  · have hok : h.fopen_ok = true := by
      rcases hfo with e | e
      · exact absurd hst e
      · exact e
    simp only [download_start, hst, hopen, hok, ne_eq, not_true_eq_false, if_false, emit] at hx
    simp only [hst, hok, not_true_eq_false, if_false, reduceCtorEq, and_false, emit]
    rw [hx]
    by_cases h1 : r = h.UART_QUIT <;> by_cases h2 : r = h.UART_EXIT <;>
      by_cases h3 : r = h.UART_TIMEOUT <;>
      simp [h1, h2, h3, cleanup, emit, closing_events, hst]
  · simp only [download_start, hst, hopen, ne_eq, not_false_eq_true, if_true, emit] at hx
    simp only [hst, not_false_eq_true, if_true, reduceCtorEq, and_false, if_false, emit]
    rw [hx]
    by_cases h1 : r = h.UART_QUIT <;> by_cases h2 : r = h.UART_EXIT <;>
      by_cases h3 : r = h.UART_TIMEOUT <;>
      simp [h1, h2, h3, cleanup, emit, closing_events, hst]

theorem countP_isDelete_fwrites (es : List Event) (h : ∀ e ∈ es, ∃ o n, e = Event.fwrite o n) :
    es.countP Event.isDelete = 0 := by
  induction es with
  | nil => rfl
  | cons e es ih =>
    obtain ⟨o, n, rfl⟩ := h e (by simp)
    simpa [List.countP_cons, Event.isDelete] using ih (fun x hx => h x (by simp [hx]))

theorem download_start_fields (h : Host) (o : Options) :
    (download_start h o).rx_pos = 0 ∧ (download_start h o).reads = 0 ∧
    (download_start h o).writes = 0 ∧ sink_bytes (download_start h o).trace = [] ∧
    (download_start h o).trace.countP Event.isDelete = 0 := by
  unfold download_start
  simp only []
  split_ifs <;> simp [emit, World.init, sink_bytes, List.countP_cons, Event.isDelete]

/-- C15 (exit code for transport outcomes in download mode): in a download run that
reaches the exchange, when `rss_download_channel` returns `UART_QUIT`, `UART_EXIT` or
`UART_TIMEOUT` the exit code is -1 and the cleanup ends with the `DELETE` of the output
file name; for every other result the exit code is 0 and nothing is deleted. In
particular (none of the three codes being 0) when the whole body is received and written
the exit code is 0, the output holds the body and no `DELETE` is issued. -/
theorem download_exit_code (h : Host) (argv : List (List Nat)) (o : Options) (fuel : Nat)
    (u : List Nat)
    (hargs : parse_args (argv.drop 1) (default_options h) = some o)
    (hmode : o.datetime_sync_mode = 0) (hurl : o.rss_url = some u)
    (hbaud : getenv_int h "RSSN_SPEED" 38400 = 9600 ∨ getenv_int h "RSSN_SPEED" 38400 = 19200 ∨
      getenv_int h "RSSN_SPEED" 38400 = 38400)
    (hopen : h.uart_open_result = 0)
    (hfo : wrap16 (getenv_int h "RSSN_STDOUT" 0) ≠ 0 ∨ h.fopen_ok = true)
    (r : Int) (w1 : World)
    (hx : rss_download_channel h (download_start h o) u o.output_format = some (r, w1)) :
    (r = h.UART_QUIT ∨ r = h.UART_EXIT ∨ r = h.UART_TIMEOUT →
      ∃ w, main h fuel argv = some (-1, w) ∧
        w.trace = w1.trace ++ closing_events h ++ [Event.DELETE o.output_file_name]) ∧
    (¬ (r = h.UART_QUIT ∨ r = h.UART_EXIT ∨ r = h.UART_TIMEOUT) →
      ∃ w, main h fuel argv = some (0, w) ∧ w.trace = w1.trace ++ closing_events h ∧
        (closing_events h).countP Event.isDelete = 0) ∧
    (h.UART_QUIT ≠ 0 → h.UART_EXIT ≠ 0 → h.UART_TIMEOUT ≠ 0 →
      ∀ ds : List Nat, h.uart_write_result 0 = 0 → h.uart_read_result 0 = h.UART_OK →
        line h 0 14 = str "<|0200" ++ ds → ds.length = 8 → (∀ c ∈ ds, isHexDigit c = true) →
        hexNum ds ≤ 1024 * 128 - 16 → h.uart_read_result 1 = h.UART_OK →
        (∀ k n, 1 ≤ n → 1 ≤ h.fwrite_result k n) →
        ∃ w, main h fuel argv = some (0, w) ∧ sink_bytes w.trace = line h 14 (hexNum ds) ∧
          w.trace.countP Event.isDelete = 0) := by
  have hmain := main_download h argv o fuel u hargs hmode hurl hbaud hopen hfo r w1 hx
  have hcl : (closing_events h).countP Event.isDelete = 0 := by
    unfold closing_events
    split_ifs <;> simp [List.countP_cons, Event.isDelete]
  have hcs : sink_bytes (closing_events h) = [] := by
    unfold closing_events
    split_ifs <;> simp [sink_bytes]
  refine ⟨?_, ?_, ?_⟩
  · intro hr
    rw [hmain, if_pos hr]
    exact ⟨_, rfl, rfl⟩
  · intro hr
    rw [hmain, if_neg hr]
    exact ⟨_, rfl, rfl, hcl⟩
  · intro q1 q2 q3 ds hw hr hline hlen hall hbound hr2 hsink
    obtain ⟨f1, f2, f3, f4, f5⟩ := download_start_fields h o
    have hrec := rss_download_channel_received h (download_start h o) u o.output_format ds
      (by rw [f3]; exact hw) (by rw [f2]; exact hr) (by rw [f1]; exact hline) hlen hall hbound
      (by rw [f2]; exact hr2)
    rw [hrec] at hx
    simp only [Option.some.injEq, Prod.mk.injEq] at hx
    obtain ⟨hr0, hw1⟩ := hx
    have hnot : ¬ (r = h.UART_QUIT ∨ r = h.UART_EXIT ∨ r = h.UART_TIMEOUT) := by
      rw [← hr0]
      simp [Ne.symm q1, Ne.symm q2, Ne.symm q3]
    rw [hmain, if_neg hnot]
    obtain ⟨_, hfw, hsb⟩ := loop_events_spec h (before_loop h (download_start h o)
      (download_request o.output_format u) (str "<|0200" ++ ds) (hexNum ds)) (hexNum ds)
    have hpk := peek_blit (blit (download_start h o).response_buf 0 (str "<|0200" ++ ds))
      (line h ((download_start h o).rx_pos + 14) (hexNum ds)) 14
    rw [line_length, f1] at hpk
    refine ⟨_, rfl, ?_, ?_⟩
    · rw [← hw1]
      simp only [sink_bytes_append, hcs, hsb hsink, List.append_nil]
      simp [before_loop, sink_bytes_append, sink_bytes, f4, f1, hpk]
    · rw [← hw1]
      simp only [List.countP_append, hcl, countP_isDelete_fwrites _ hfw, Nat.add_zero]
      simp [before_loop, List.countP_append, f5, List.countP_cons, Event.isDelete]

/-- Witness for C15: the body read is cancelled (result 2, `UART_QUIT` of the example
host): exit code -1 and the cleanup ends with the `DELETE` of `_R.D`; and the download of
`hello` ends with exit code 0, the body in the output and no `DELETE`. -/
theorem download_exit_code_witness :
    (∃ (w1 w : World), main (failingHost (str "<|020000000005hello") (fun _ => 0)
          (fun k => if k = 1 then 2 else 0)) 0 [str "rssnex", str "http://example/feed"] =
        some (-1, w) ∧
      w.trace = w1.trace ++ closing_events (failingHost (str "<|020000000005hello") (fun _ => 0)
          (fun k => if k = 1 then 2 else 0)) ++ [Event.DELETE (str "_R.D")]) ∧
    (∃ w, main (exampleHost (str "<|020000000005hello") 2) 0
          [str "rssnex", str "http://example/feed"] = some (0, w) ∧
      sink_bytes w.trace = str "hello" ∧ w.trace.countP Event.isDelete = 0) :=
  ⟨(let ⟨w1, hx⟩ : ∃ w1, rss_download_channel (failingHost (str "<|020000000005hello")
          (fun _ => 0) (fun k => if k = 1 then 2 else 0))
        (download_start (failingHost (str "<|020000000005hello") (fun _ => 0)
          (fun k => if k = 1 then 2 else 0))
          { quiet_mode := 0, datetime_sync_mode := 0, tz := 9, output_format := 0,
            rss_url := some (str "http://example/feed"), output_file_name := str "_R.D" })
        (str "http://example/feed") 0 = some (2, w1) := ⟨_, rfl⟩
    let ⟨w, h1, h2⟩ := (download_exit_code (failingHost (str "<|020000000005hello") (fun _ => 0)
        (fun k => if k = 1 then 2 else 0)) [str "rssnex", str "http://example/feed"]
      { quiet_mode := 0, datetime_sync_mode := 0, tz := 9, output_format := 0,
        rss_url := some (str "http://example/feed"), output_file_name := str "_R.D" } 0
      (str "http://example/feed") (by decide) rfl rfl (by decide) rfl (by decide) 2 w1 hx).1
      (by decide)
    ⟨w1, w, h1, h2⟩),
   (let ⟨w1, hx⟩ : ∃ w1, rss_download_channel (exampleHost (str "<|020000000005hello") 2)
        (download_start (exampleHost (str "<|020000000005hello") 2)
          { quiet_mode := 0, datetime_sync_mode := 0, tz := 9, output_format := 0,
            rss_url := some (str "http://example/feed"), output_file_name := str "_R.D" })
        (str "http://example/feed") 0 = some (0, w1) := ⟨_, rfl⟩
    (download_exit_code (exampleHost (str "<|020000000005hello") 2)
        [str "rssnex", str "http://example/feed"]
      { quiet_mode := 0, datetime_sync_mode := 0, tz := 9, output_format := 0,
        rss_url := some (str "http://example/feed"), output_file_name := str "_R.D" } 0
      (str "http://example/feed") (by decide) rfl rfl (by decide) rfl (by decide) 0 w1 hx).2.2
      (by decide) (by decide) (by decide) (str "00000005") rfl rfl (by decide) (by decide)
      (by decide) (by decide) rfl (fun _ _ _ => Nat.le_succ 1))⟩

/-! ## Packing of the clock words -/

theorem int_lor_natCast (m n : Nat) : Int.lor (m : Int) (n : Int) = ((m ||| n : Nat) : Int) := rfl

theorem pack_time_eq_add (a b c : Nat) (hb : b < 256) (hc : c < 256) :
    pack_time a b c = (a : Int) * 65536 + (b : Int) * 256 + (c : Int) := by
  have e1 : (a : Int) * 65536 = ((a * 65536 : Nat) : Int) := by push_cast; ring
  have e2 : (b : Int) * 256 = ((b * 256 : Nat) : Int) := by push_cast; ring
  unfold pack_time
  rw [e1, e2, int_lor_natCast, int_lor_natCast, Nat.lor_assoc]
  have h1 : b * 256 ||| c = 2 ^ 8 * b + c := by
    have := Nat.mul_add_lt_is_or (show c < 2 ^ 8 by norm_num; exact hc) b
    rw [this, Nat.mul_comm]
  have h2 : a * 65536 ||| (2 ^ 8 * b + c) = 2 ^ 16 * a + (2 ^ 8 * b + c) := by
    have := Nat.mul_add_lt_is_or (show 2 ^ 8 * b + c < 2 ^ 16 by norm_num; omega) a
    rw [this, Nat.mul_comm]
  rw [h1, h2]
  push_cast
  ring

theorem pack_date_eq_add (y m d : Nat) (hm : m < 16) (hd : d < 32) :
    pack_date y m d = (y : Int) * 512 + (m : Int) * 32 + (d : Int) := by
  have e1 : (y : Int) * 512 = ((y * 512 : Nat) : Int) := by push_cast; ring
  have e2 : (m : Int) * 32 = ((m * 32 : Nat) : Int) := by push_cast; ring
  unfold pack_date
  rw [e1, e2, int_lor_natCast, int_lor_natCast, Nat.lor_assoc]
  have h1 : m * 32 ||| d = 2 ^ 5 * m + d := by
    have := Nat.mul_add_lt_is_or (show d < 2 ^ 5 by norm_num; exact hd) m
    rw [this, Nat.mul_comm]
  have h2 : y * 512 ||| (2 ^ 5 * m + d) = 2 ^ 9 * y + (2 ^ 5 * m + d) := by
    have := Nat.mul_add_lt_is_or (show 2 ^ 5 * m + d < 2 ^ 9 by norm_num; omega) y
    rw [this, Nat.mul_comm]
  rw [h1, h2]
  push_cast
  ring

theorem shape19 (t : List Nat) (hl : 19 ≤ t.length) :
    ∃ c0 c1 c2 c3 c4 c5 c6 c7 c8 c9 c10 c11 c12 c13 c14 c15 c16 c17 c18 rest,
      t = c0 :: c1 :: c2 :: c3 :: c4 :: c5 :: c6 :: c7 :: c8 :: c9 :: c10 :: c11 :: c12 ::
        c13 :: c14 :: c15 :: c16 :: c17 :: c18 :: rest := by
  rcases t with _ | ⟨c0, _ | ⟨c1, _ | ⟨c2, _ | ⟨c3, _ | ⟨c4, _ | ⟨c5, _ | ⟨c6, _ | ⟨c7,
    _ | ⟨c8, _ | ⟨c9, _ | ⟨c10, _ | ⟨c11, _ | ⟨c12, _ | ⟨c13, _ | ⟨c14, _ | ⟨c15, _ | ⟨c16,
    _ | ⟨c17, _ | ⟨c18, rest⟩⟩⟩⟩⟩⟩⟩⟩⟩⟩⟩⟩⟩⟩⟩⟩⟩⟩⟩ <;> simp at hl
  exact ⟨c0, c1, c2, c3, c4, c5, c6, c7, c8, c9, c10, c11, c12, c13, c14, c15, c16, c17, c18,
    rest, rfl⟩

/-- The pass of the sync loop that sees a body differing from the baseline, for any body
with digits at the field offsets: the clock is set from the fields. -/
theorem sync_loop_tick_digits (h : Host) (w : World) (tz : Int) (ts0 ts1 : List Nat) (fuel : Nat)
    (ds t : List Nat) (rest : List (List Nat × List Nat))
    (hs : serves h w.rx_pos w.reads w.writes ((ds, t) :: rest) = true)
    (hfit : t.length ≤ 127) (ht : hasDigitFields t = true)
    (hne : cstr ts0 ≠ cstr (t.take 19)) :
    ∃ w1, sync_loop h tz ts0 (fuel + 1) ts1 w = some (0, w1) ∧
      w1.trace = w.trace ++ query_events tz h.UART_OK ds t ++
        [Event.SETTIM2 (time_word t), Event.SETDATE (date_word t)] := by
  have hl : 19 ≤ t.length := by
    simp only [hasDigitFields, Bool.and_eq_true, decide_eq_true_eq] at ht
    exact ht.1
  have hstr : strcmp_eq ts0 (blit (blit ts1 0 t) 19 [0]) = false := by
    unfold strcmp_eq
    rw [cstr_ts_buffer _ _ hl]
    simpa using hne
  unfold sync_loop
  simp only [rss_datetime_served h w tz ts1 127 ds t rest hs hfit, hstr]
  obtain ⟨c0, c1, c2, c3, c4, c5, c6, c7, c8, c9, c10, c11, c12, c13, c14, c15, c16, c17, c18,
    r, rfl⟩ := shape19 t hl
  obtain ⟨tail, hbuf⟩ := ts_fields_buffer ts1 c0 c1 c2 c3 c4 c5 c6 c7 c8 c9 c10 c11 c12 c13 c14
    c15 c16 c17 c18 r
  simp only [hasDigitFields, List.all_cons, List.all_nil, Bool.and_eq_true,
    decide_eq_true_eq, List.getD_cons_zero, List.getD_cons_succ, Bool.and_true] at ht
  obtain ⟨_, d0, d1, d2, d3, d5, d6, d8, d9, d11, d12, d14, d15, d17, d18⟩ := ht
  simp only [hbuf, List.drop_succ_cons, List.drop_zero, atoi_digits2 _ _ _ d11 d12,
    atoi_digits2 _ _ _ d14 d15, atoi_digits2 _ _ _ d17 d18, atoi_digits2 _ _ _ d5 d6,
    atoi_digits2 _ _ _ d8 d9, atoi_digits4 _ _ _ _ _ d0 d1 d2 d3]
  simp only [isDigit, Bool.and_eq_true, decide_eq_true_eq] at d0 d1 d2 d3 d5 d6 d8 d9 d11 d12 d14 d15 d17 d18
  refine ⟨_, rfl, ?_⟩
  have hH : (c11 - 48) * 10 + (c12 - 48) ≤ 99 := by omega
  have hM : (c14 - 48) * 10 + (c15 - 48) ≤ 99 := by omega
  have hS : (c17 - 48) * 10 + (c18 - 48) ≤ 99 := by omega
  have hMo : (c5 - 48) * 10 + (c6 - 48) ≤ 99 := by omega
  have hD : (c8 - 48) * 10 + (c9 - 48) ≤ 99 := by omega
  have hY : (((c0 - 48) * 10 + (c1 - 48)) * 10 + (c2 - 48)) * 10 + (c3 - 48) ≤ 9999 := by omega
  simp only [emit, time_word, date_word, field, List.drop_succ_cons, List.drop_zero,
    List.take_succ_cons, List.take_zero, List.foldl_cons, List.foldl_nil, Nat.zero_mul,
    Nat.zero_add, List.append_assoc, List.singleton_append]
  generalize (c11 - 48) * 10 + (c12 - 48) = H at hH ⊢
  generalize (c14 - 48) * 10 + (c15 - 48) = M at hM ⊢
  generalize (c17 - 48) * 10 + (c18 - 48) = S at hS ⊢
  generalize (c5 - 48) * 10 + (c6 - 48) = Mo at hMo ⊢
  generalize (c8 - 48) * 10 + (c9 - 48) = D at hD ⊢
  generalize (((c0 - 48) * 10 + (c1 - 48)) * 10 + (c2 - 48)) * 10 + (c3 - 48) = Y at hY ⊢
  rw [wrap16_of_range (H : Int) (by omega) (by omega),
    wrap16_of_range (M : Int) (by omega) (by omega),
    wrap16_of_range (S : Int) (by omega) (by omega),
    wrap16_of_range (Mo : Int) (by omega) (by omega),
    wrap16_of_range (D : Int) (by omega) (by omega),
    wrap16_of_range ((Y : Int) - 1980) (by omega) (by omega),
    wrapInt32_of_range ((H : Int) * 65536) (by omega) (by omega),
    wrapInt32_of_range ((M : Int) * 256) (by omega) (by omega),
    wrapInt32_of_range ((Mo : Int) * 32) (by omega) (by omega),
    wrapInt32_of_range (((Y : Int) - 1980) * 512) (by omega) (by omega)]

theorem field2_lt (t : List Nat) (off : Nat) (h1 : isDigit (t.getD off 0) = true)
    (h2 : isDigit (t.getD (off + 1) 0) = true) : field t off 2 < 100 := by
  simp only [isDigit, Bool.and_eq_true, decide_eq_true_eq] at h1 h2
  unfold field
  rcases hd : t.drop off with _ | ⟨a, _ | ⟨b, r⟩⟩
  · simp
  · simp
    have : t.getD off 0 = a := by
      have := congrArg (fun l => l.getD 0 0) hd
      simpa [List.getD_eq_getElem?_getD] using this
    omega
  · have ha : t.getD off 0 = a := by
      have := congrArg (fun l => l.getD 0 0) hd
      simpa [List.getD_eq_getElem?_getD] using this
    have hb : t.getD (off + 1) 0 = b := by
      have := congrArg (fun l => l.getD 1 0) hd
      simpa [List.getD_eq_getElem?_getD] using this
    simp
    omega

/-- C16 as stated fails: for the timestamp `2023-01-33 00:00:00` (digits at all field
offsets) the sync loop calls `SETDATE` with 22049, the bitwise OR of 43 * 512, 1 * 32 and
33, while `(year - 1980) * 512 + month * 32 + day` is 22081. -/
theorem day_33_date_word :
    hasDigitFields (str "2023-01-33 00:00:00") = true ∧
    (main (exampleHost badDayLine 0) 1 [str "rssnex", str "-t"]).map
        (fun r => r.2.trace.filter Event.isSetDate) = some [Event.SETDATE 22049] ∧
    (field (str "2023-01-33 00:00:00") 0 4 - 1980) * 512 +
        field (str "2023-01-33 00:00:00") 5 2 * 32 + field (str "2023-01-33 00:00:00") 8 2 =
      22081 := by
  refine ⟨?_, ?_, ?_⟩ <;> decide

/-- C16 (amended): for every body with decimal digits at the offsets 0-3, 5-6, 8-9, 11-12,
14-15 and 17-18 that differs from the baseline, the sync loop takes year, month, day,
hour, minute and second as the decimal values of the digit groups, calls `SETTIM2` with
`hour * 65536 + minute * 256 + second` and `SETDATE` with the bitwise OR of
`(year - 1980) * 512`, `month * 32` and `day`; that OR is the sum
`(year - 1980) * 512 + month * 32 + day` when `1980 ≤ year`, `month ≤ 15` and `day ≤ 31`.
For `1980 ≤ year ≤ 2107`, `month ≤ 15`, `day ≤ 31` and `hour, minute, second ≤ 255` the six
fields are determined by the two words. -/
theorem clock_words (h : Host) (w : World) (tz : Int) (ts0 ts1 : List Nat) (fuel : Nat)
    (ds t : List Nat) (rest : List (List Nat × List Nat))
    (hs : serves h w.rx_pos w.reads w.writes ((ds, t) :: rest) = true)
    (hfit : t.length ≤ 127) (ht : hasDigitFields t = true)
    (hne : cstr ts0 ≠ cstr (t.take 19)) :
    (∃ w1, sync_loop h tz ts0 (fuel + 1) ts1 w = some (0, w1) ∧
      w1.trace = w.trace ++ query_events tz h.UART_OK ds t ++
        [Event.SETTIM2 (field t 11 2 * 65536 + field t 14 2 * 256 + field t 17 2),
         Event.SETDATE (pack_date (field t 0 4 - 1980) (field t 5 2) (field t 8 2))]) ∧
    (1980 ≤ field t 0 4 → field t 5 2 ≤ 15 → field t 8 2 ≤ 31 →
      pack_date (field t 0 4 - 1980) (field t 5 2) (field t 8 2) =
        (field t 0 4 - 1980) * 512 + field t 5 2 * 32 + field t 8 2) ∧
    (∀ y mo d hh mi ss y1 mo1 d1 hh1 mi1 ss1 : Nat,
      1980 ≤ y → y ≤ 2107 → mo ≤ 15 → d ≤ 31 → hh ≤ 255 → mi ≤ 255 → ss ≤ 255 →
      1980 ≤ y1 → y1 ≤ 2107 → mo1 ≤ 15 → d1 ≤ 31 → hh1 ≤ 255 → mi1 ≤ 255 → ss1 ≤ 255 →
      pack_time hh mi ss = pack_time hh1 mi1 ss1 →
      pack_date ((y : Int) - 1980) mo d = pack_date ((y1 : Int) - 1980) mo1 d1 →
      y = y1 ∧ mo = mo1 ∧ d = d1 ∧ hh = hh1 ∧ mi = mi1 ∧ ss = ss1) := by
  have hdate : ∀ (y mo d : Nat), 1980 ≤ y → mo ≤ 15 → d ≤ 31 →
      pack_date ((y : Int) - 1980) mo d = ((y : Int) - 1980) * 512 + (mo : Int) * 32 + d := by
    intro y mo d hy hmo hd
    have e : ((y : Int) - 1980) = ((y - 1980 : Nat) : Int) := by omega
    rw [e]
    exact pack_date_eq_add (y - 1980) mo d (by omega) (by omega)
  refine ⟨?_, ?_, ?_⟩
  · obtain ⟨w1, he, htr⟩ := sync_loop_tick_digits h w tz ts0 ts1 fuel ds t rest hs hfit ht hne
    refine ⟨w1, he, ?_⟩
    rw [htr]
    simp only [hasDigitFields, List.all_cons, List.all_nil, Bool.and_eq_true,
      decide_eq_true_eq, Bool.and_true] at ht
    obtain ⟨_, _, _, _, _, _, _, _, _, d11, d12, d14, d15, d17, d18⟩ := ht
    have hM := field2_lt t 14 d14 d15
    have hS := field2_lt t 17 d17 d18
    have htime : time_word t = field t 11 2 * 65536 + field t 14 2 * 256 + field t 17 2 := by
      unfold field at hM hS
      exact pack_time_eq_add _ _ _ (by omega) (by omega)
    rw [htime]
    rfl
  · intro hy hmo hd
    unfold field at hy hmo hd ⊢
    exact hdate _ _ _ (by omega) (by omega) (by omega)
  · intro y mo d hh mi ss y1 mo1 d1 hh1 mi1 ss1 a1 a2 a3 a4 a5 a6 a7 b1 b2 b3 b4 b5 b6 b7 ht hd
    rw [pack_time_eq_add hh mi ss (by omega) (by omega),
      pack_time_eq_add hh1 mi1 ss1 (by omega) (by omega)] at ht
    rw [hdate y mo d a1 a3 a4, hdate y1 mo1 d1 b1 b3 b4] at hd
    omega

/-- Witness for C16 (amended): after the baseline `2023-08-22 10:00:00` the answer
`2023-08-22 10:00:01` sets the time word 10 * 65536 + 0 * 256 + 1 and the date word
43 * 512 + 8 * 32 + 22. -/
theorem clock_words_witness :
    ∃ w1, sync_loop (exampleHost (str "<|0200000000132023-08-22 10:00:01") 0) 9
        (str "2023-08-22 10:00:00") (0 + 1) [] World.init = some (0, w1) ∧
      w1.trace = World.init.trace ++
        query_events 9 0 (str "00000013") (str "2023-08-22 10:00:01") ++
        [Event.SETTIM2 655361, Event.SETDATE 22294] :=
  (clock_words (exampleHost (str "<|0200000000132023-08-22 10:00:01") 0) World.init 9
    (str "2023-08-22 10:00:00") [] 0 (str "00000013") (str "2023-08-22 10:00:01") []
    (by decide) (by decide) (by decide) (by decide)).1

/-! ## Detection of the second tick -/

theorem exists_clock_set (w : World) (pre : List Event) (a b : Int) (h : w.trace = pre) :
    ∃ w1 tw dw, some ((0 : Int), emit (emit w (Event.SETTIM2 a)) (Event.SETDATE b)) =
        some (0, w1) ∧
      w1.trace = pre ++ [Event.SETTIM2 tw, Event.SETDATE dw] :=
  ⟨_, a, b, rfl, by simp [emit, h]⟩

/-- C17 as stated fails: the baseline and the poll are 19-byte bodies that start with a
NUL byte and differ in their last byte. `strcmp` sees two empty strings: the loop waits
and polls again (the next query, unanswered, ends the run) and never sets the clock. -/
theorem nul_byte_hides_the_tick :
    (0 :: str "023-08-22 10:00:01").take 19 ≠ (0 :: str "023-08-22 10:00:00").take 19 ∧
    (main (exampleHost nulLine 0) 2 [str "rssnex", str "-t"]).map
        (fun r => (r.2.trace.countP Event.isQuery, r.2.trace.countP Event.isWait,
          r.2.trace.countP Event.isSetTime, r.2.trace.countP Event.isSetDate)) =
      some (3, 1, 0, 0) := by
  constructor <;> decide

/-- C17 (amended): the tick detection compares, with `strcmp`, the C strings held in the
first 19 bytes of the two bodies (the bytes before the first NUL). For a baseline `b0` and
a served poll `b1`, each of at least 19 bytes, the loop waits and polls again when these
strings are equal and otherwise sets the clock from `b1` and ends; bytes after the first
19 play no part. When neither 19-byte part holds a NUL byte, the strings are equal
exactly when the first 19 bytes are. -/
theorem tick_detection (h : Host) (w : World) (tz : Int) (buf0 b0 ts1 : List Nat) (fuel : Nat)
    (ds b1 : List Nat) (rest : List (List Nat × List Nat))
    (hs : serves h w.rx_pos w.reads w.writes ((ds, b1) :: rest) = true)
    (h0 : 19 ≤ b0.length) (h1 : 19 ≤ b1.length) (hfit : b1.length ≤ 127) :
    (cstr (b1.take 19) = cstr (b0.take 19) →
      sync_loop h tz (blit (blit buf0 0 b0) 19 [0]) (fuel + 1) ts1 w =
        sync_loop h tz (blit (blit buf0 0 b0) 19 [0]) fuel (blit (blit ts1 0 b1) 19 [0])
          { rx_pos := w.rx_pos + 14 + b1.length, reads := w.reads + 2, writes := w.writes + 1,
            fwrites := w.fwrites, response_buf := blit w.response_buf 0 (str "<|0200" ++ ds),
            trace := w.trace ++ query_events tz h.UART_OK ds b1 ++ [Event.wait] }) ∧
    (cstr (b1.take 19) ≠ cstr (b0.take 19) →
      ∃ w1 tw dw, sync_loop h tz (blit (blit buf0 0 b0) 19 [0]) (fuel + 1) ts1 w = some (0, w1) ∧
        w1.trace = w.trace ++ query_events tz h.UART_OK ds b1 ++
          [Event.SETTIM2 tw, Event.SETDATE dw]) ∧
    ((∀ c ∈ b0.take 19, c ≠ 0) → (∀ c ∈ b1.take 19, c ≠ 0) →
      (cstr (b1.take 19) = cstr (b0.take 19) ↔ b1.take 19 = b0.take 19)) := by
  have hcmp : strcmp_eq (blit (blit buf0 0 b0) 19 [0]) (blit (blit ts1 0 b1) 19 [0]) =
      decide (cstr (b0.take 19) = cstr (b1.take 19)) := by
    unfold strcmp_eq
    rw [cstr_ts_buffer _ _ h0, cstr_ts_buffer _ _ h1]
    by_cases e : cstr (b0.take 19) = cstr (b1.take 19) <;> simp [e]
  refine ⟨?_, ?_, ?_⟩
  · intro he
    conv_lhs => unfold sync_loop
    simp only [rss_datetime_served h w tz ts1 127 ds b1 rest hs hfit, hcmp, he.symm]
    simp [emit]
  · intro hne
    have hne2 : ¬ cstr (b0.take 19) = cstr (b1.take 19) := fun e => hne e.symm
    unfold sync_loop
    simp only [rss_datetime_served h w tz ts1 127 ds b1 rest hs hfit, hcmp, hne2]
    exact exists_clock_set _ _ _ _ rfl
  · intro z0 z1
    rw [cstr_of_nonzero _ z0, cstr_of_nonzero _ z1]

/-- Witness for C17 (amended): after the baseline `2023-08-22 10:00:00` the poll
`2023-08-22 10:00:01` sets the clock, and the poll `2023-08-22 10:00:00`, followed by
other bytes, leads to the wait and the next pass. -/
theorem tick_detection_witness :
    (∃ w1 tw dw, sync_loop (exampleHost (str "<|0200000000132023-08-22 10:00:01") 0) 9
        (blit (blit [] 0 (str "2023-08-22 10:00:00")) 19 [0]) (0 + 1) [] World.init =
        some (0, w1) ∧
      w1.trace = World.init.trace ++
        query_events 9 0 (str "00000013") (str "2023-08-22 10:00:01") ++
        [Event.SETTIM2 tw, Event.SETDATE dw]) ∧
    sync_loop (exampleHost (str "<|0200000000152023-08-22 10:00:00.5") 0) 9
        (blit (blit [] 0 (str "2023-08-22 10:00:00")) 19 [0]) (0 + 1) [] World.init =
      sync_loop (exampleHost (str "<|0200000000152023-08-22 10:00:00.5") 0) 9
        (blit (blit [] 0 (str "2023-08-22 10:00:00")) 19 [0]) 0
        (blit (blit [] 0 (str "2023-08-22 10:00:00.5")) 19 [0])
        { rx_pos := World.init.rx_pos + 14 + (str "2023-08-22 10:00:00.5").length,
          reads := World.init.reads + 2, writes := World.init.writes + 1,
          fwrites := World.init.fwrites,
          response_buf := blit World.init.response_buf 0 (str "<|0200" ++ str "00000015"),
          trace := World.init.trace ++
            query_events 9 0 (str "00000015") (str "2023-08-22 10:00:00.5") ++ [Event.wait] } :=
  ⟨(tick_detection (exampleHost (str "<|0200000000132023-08-22 10:00:01") 0) World.init 9 []
      (str "2023-08-22 10:00:00") [] 0 (str "00000013") (str "2023-08-22 10:00:01") []
      (by decide) (by decide) (by decide) (by decide)).2.1 (by decide),
   (tick_detection (exampleHost (str "<|0200000000152023-08-22 10:00:00.5") 0) World.init 9 []
      (str "2023-08-22 10:00:00") [] 0 (str "00000015") (str "2023-08-22 10:00:00.5") []
      (by decide) (by decide) (by decide) (by decide)).1 (by decide)⟩

/-! ## Cleanup -/

theorem countP_isDelete_transport (evs : List Event) (h : evs.all Event.isTransport = true) :
    evs.countP Event.isDelete = 0 := by
  induction evs with
  | nil => simp
  | cons e es ih =>
    simp only [List.all_cons, Bool.and_eq_true] at h
    have := ih h.2
    cases e <;> simp_all [Event.isTransport, Event.isDelete, List.countP_cons]

theorem rss_datetime_no_delete (h : Host) (w : World) (tz : Int) (buf : List Nat) (buf_len : Nat) :
    (rss_datetime h w tz buf buf_len).2.2.trace.countP Event.isDelete =
      w.trace.countP Event.isDelete := by
  obtain ⟨evs, he, _, ht⟩ := rss_datetime_calls h w tz buf buf_len
  rw [he, List.countP_append, countP_isDelete_transport evs ht, Nat.add_zero]

theorem sync_loop_no_delete (h : Host) (tz : Int) (ts0 : List Nat) :
    ∀ (fuel : Nat) (ts1 : List Nat) (w : World) (r : Int × World),
      sync_loop h tz ts0 fuel ts1 w = some r →
      r.2.trace.countP Event.isDelete = w.trace.countP Event.isDelete := by
  intro fuel
  induction fuel with
  | zero => intro ts1 w r hr; simp [sync_loop] at hr
  | succ k ih =>
    intro ts1 w r hr
    have hq := rss_datetime_no_delete h w tz ts1 127
    unfold sync_loop at hr
    simp only [] at hr
    split_ifs at hr with h1 h2
    · simp only [Option.some.injEq] at hr
      rw [← hr]
      exact hq
    · have := ih _ _ _ hr
      rw [this]
      simp [emit, List.countP_append, List.countP_cons, Event.isDelete, hq]
    · simp only [Option.some.injEq] at hr
      rw [← hr]
      simp [emit, List.countP_append, List.countP_cons, Event.isDelete, hq]

theorem rss_download_channel_no_delete (h : Host) (w : World) (rss_url : List Nat)
    (output_format : Int) (r : Int × World)
    (hr : rss_download_channel h w rss_url output_format = some r) :
    r.2.trace.countP Event.isDelete = w.trace.countP Event.isDelete := by
  unfold rss_download_channel at hr
  simp only [fwrite_loop_start] at hr
  split_ifs at hr <;> simp only [Option.some.injEq] at hr <;> rw [← hr] <;>
    simp [uart_write_snd, uart_read_world, List.countP_append, List.countP_cons, Event.isDelete,
      countP_isDelete_fwrites _ (loop_events_spec _ _ _).2.1]

/-- The output file name after the command line was read: the last argument that is not
an option and comes after the first such argument (the URL), if there is one. -/
theorem parse_args_name : ∀ (args : List (List Nat)) (o0 o : Options),
    parse_args args o0 = some o →
    o.output_file_name =
      match (if o0.rss_url = none then (positionals args).drop 1
             else positionals args).getLast? with
      | none => o0.output_file_name
      | some f => cstr f := by
  intro args
  induction args with
  | nil =>
    intro o0 o hp
    simp only [parse_args, Option.some.injEq] at hp
    subst hp
    simp [positionals]
  | cons a rest ih =>
    intro o0 o hp
    unfold parse_args at hp
    by_cases hopt : a.getD 0 0 = 45 ∧ strlen a ≥ 2
    · have hd : decide (a.getD 0 0 = 45 ∧ strlen a ≥ 2) = true := decide_eq_true hopt
      have hpos : positionals (a :: rest) = positionals rest := by
        unfold positionals
        rw [List.filter_cons_of_neg]
        rw [hd]
        decide
      rw [hpos]
      rw [if_pos hopt] at hp
      by_cases h1 : a.getD 1 0 = 104
      · rw [if_pos h1] at hp
        exact absurd hp (by simp)
      rw [if_neg h1] at hp
      by_cases h2 : a.getD 1 0 = 100
      · rw [if_pos h2] at hp
        simpa using ih _ o hp
      rw [if_neg h2] at hp
      by_cases h3 : a.getD 1 0 = 116
      · rw [if_pos h3] at hp
        simpa using ih _ o hp
      rw [if_neg h3] at hp
      exact absurd hp (by simp)
    · have hd : decide (a.getD 0 0 = 45 ∧ strlen a ≥ 2) = false := decide_eq_false hopt
      have hpos : positionals (a :: rest) = a :: positionals rest := by
        unfold positionals
        rw [List.filter_cons_of_pos]
        rw [hd]
        decide
      rw [hpos]
      rw [if_neg hopt] at hp
      by_cases hu : o0.rss_url = none
      · rw [if_pos hu] at hp
        have := ih _ o hp
        simpa [hu] using this
      · rw [if_neg hu] at hp
        have := ih _ o hp
        simp only [hu, if_false] at this ⊢
        rw [this]
        cases hl : positionals rest with
        | nil => simp
        | cons b l =>
          simp only [List.getLast?_cons_cons]
          rw [List.getLast?_eq_getLast _ (List.cons_ne_nil b l)]

/-- The cleanup block: the exit code is `rc`; when `rc` is not 0 its last call is the
`DELETE` of the output file name, and it is the only one; when `rc` is 0 it deletes
nothing. -/
theorem cleanup_spec (stdout_mode : Int) (fo_open : Bool) (name : List Nat) (rc : Int)
    (w : World) (hw : w.trace.countP Event.isDelete = 0) :
    (cleanup stdout_mode fo_open name rc w).1 = rc ∧
    (rc ≠ 0 → ∃ pre, (cleanup stdout_mode fo_open name rc w).2.trace =
        pre ++ [Event.DELETE name] ∧ pre.countP Event.isDelete = 0) ∧
    (rc = 0 → (cleanup stdout_mode fo_open name rc w).2.trace.countP Event.isDelete = 0) := by
  refine ⟨rfl, ?_, ?_⟩
  · intro hrc
    unfold cleanup
    simp only [hrc, ne_eq, not_false_eq_true, if_true, emit]
    refine ⟨_, rfl, ?_⟩
    split_ifs <;> simp [List.countP_append, List.countP_cons, Event.isDelete, hw]
  · intro hrc
    unfold cleanup
    simp only [hrc, ne_eq, not_true_eq_false, if_false, emit]
    split_ifs <;> simp [List.countP_append, List.countP_cons, Event.isDelete, hw]

/-- C18 (cleanup deletes the output file name on every failed run): whenever `main`, past
the checks of its arguments, returns with an exit code other than 0, in whatever mode, the
last call it made is the `DELETE` of the output file name, and it made no other `DELETE`;
when it returns 0 it made no `DELETE` at all. The output file name is `_R.D` unless an
argument follows the URL, and then it is that argument (the last one, if there are
several). -/
theorem cleanup_deletes (h : Host) (fuel : Nat) (argv : List (List Nat)) (o : Options)
    (rc : Int) (w : World)
    (hargs : parse_args (argv.drop 1) (default_options h) = some o)
    (hbaud : getenv_int h "RSSN_SPEED" 38400 = 9600 ∨ getenv_int h "RSSN_SPEED" 38400 = 19200 ∨
      getenv_int h "RSSN_SPEED" 38400 = 38400)
    (hvalid : ¬ (o.datetime_sync_mode = 0 ∧ o.rss_url = none))
    (hrun : main h fuel argv = some (rc, w)) :
    (rc ≠ 0 → ∃ pre, w.trace = pre ++ [Event.DELETE o.output_file_name] ∧
      pre.countP Event.isDelete = 0) ∧
    (rc = 0 → w.trace.countP Event.isDelete = 0) ∧
    o.output_file_name =
      (match ((positionals (argv.drop 1)).drop 1).getLast? with
       | none => str "_R.D"
       | some f => cstr f) := by
  have hb : ¬ (getenv_int h "RSSN_SPEED" 38400 ≠ 9600 ∧ getenv_int h "RSSN_SPEED" 38400 ≠ 19200 ∧
      getenv_int h "RSSN_SPEED" 38400 ≠ 38400) := by
    rcases hbaud with e | e | e <;> simp [e]
  have hname := parse_args_name (argv.drop 1) (default_options h) o hargs
  simp only [default_options, if_true] at hname
  have key : ∃ s fo rc1 w0, (rc, w) = cleanup s fo o.output_file_name rc1 w0 ∧
      w0.trace.countP Event.isDelete = 0 := by
    unfold main at hrun
    simp only [hargs, hb, hvalid, if_false] at hrun
    by_cases hopen : h.uart_open_result = 0
    swap
    · simp only [hopen, ne_eq, not_false_eq_true, if_true, Option.some.injEq] at hrun
      exact ⟨_, _, _, _, hrun.symm, by simp [emit, World.init, List.countP_cons, Event.isDelete]⟩
    simp only [hopen, ne_eq, not_true_eq_false, if_false] at hrun
    by_cases hmode : o.datetime_sync_mode = 0
    · simp only [hmode, not_true_eq_false, if_false] at hrun
      by_cases hst : wrap16 (getenv_int h "RSSN_STDOUT" 0) = 0
      · by_cases hok : h.fopen_ok = true
        · simp only [hst, hok, not_true_eq_false, if_false, reduceCtorEq] at hrun
          generalize hx : rss_download_channel _ _ _ _ = res at hrun
          cases res with
          | none => simp at hrun
          | some r =>
            simp only [Option.some.injEq] at hrun
            refine ⟨_, _, _, _, hrun.symm, ?_⟩
            rw [rss_download_channel_no_delete _ _ _ _ _ hx]
            simp [emit, World.init, List.countP_cons, Event.isDelete]
        · have hok2 : h.fopen_ok = false := by simpa using hok
          simp only [hst, hok2, not_true_eq_false, if_false, if_true, Option.some.injEq] at hrun
          exact ⟨_, _, _, _, hrun.symm,
            by simp [emit, World.init, List.countP_cons, Event.isDelete]⟩
      · simp only [hst, not_false_eq_true, if_true, reduceCtorEq, if_false] at hrun
        generalize hx : rss_download_channel _ _ _ _ = res at hrun
        cases res with
        | none => simp at hrun
        | some r =>
          simp only [Option.some.injEq] at hrun
          refine ⟨_, _, _, _, hrun.symm, ?_⟩
          rw [rss_download_channel_no_delete _ _ _ _ _ hx]
          simp [emit, World.init, List.countP_cons, Event.isDelete]
    · simp only [hmode, not_false_eq_true, if_true] at hrun
      have hq := rss_datetime_no_delete h (emit World.init (Event.uart_open
        (getenv_int h "RSSN_SPEED" 38400) (getenv_int h "RSSN_TIMEOUT" 60) 0)) o.tz h.ts0 127
      have hq0 : (rss_datetime h (emit World.init (Event.uart_open
          (getenv_int h "RSSN_SPEED" 38400) (getenv_int h "RSSN_TIMEOUT" 60) 0)) o.tz h.ts0
          127).2.2.trace.countP Event.isDelete = 0 := by
        rw [hq]; simp [emit, World.init, List.countP_cons, Event.isDelete]
      by_cases hfail : (rss_datetime h (emit World.init (Event.uart_open
          (getenv_int h "RSSN_SPEED" 38400) (getenv_int h "RSSN_TIMEOUT" 60) 0)) o.tz h.ts0
          127).1 = 0
      · simp only [hfail, not_true_eq_false, if_false] at hrun
        generalize hx : sync_loop _ _ _ _ _ _ = res at hrun
        cases res with
        | none => simp at hrun
        | some r =>
          simp only [Option.some.injEq] at hrun
          refine ⟨_, _, _, _, hrun.symm, ?_⟩
          rw [sync_loop_no_delete _ _ _ _ _ _ _ hx]
          exact hq0
      · simp only [hfail, not_false_eq_true, if_true, Option.some.injEq] at hrun
        exact ⟨_, _, _, _, hrun.symm, hq0⟩
  obtain ⟨s, fo, rc1, w0, he, hw0⟩ := key
  obtain ⟨c1, c2, c3⟩ := cleanup_spec s fo o.output_file_name rc1 w0 hw0
  have hrc : rc = rc1 := by
    have := congrArg Prod.fst he
    simpa [c1] using this
  have hw : w = (cleanup s fo o.output_file_name rc1 w0).2 := congrArg Prod.snd he
  refine ⟨?_, ?_, hname⟩
  · intro hne
    rw [hw]
    exact c2 (hrc ▸ hne)
  · intro h0
    rw [hw]
    exact c3 (hrc ▸ h0)

/-- Witness for C18: a failed clock-sync run with the arguments `-t x OUT.TXT` ends with
the `DELETE` of `OUT.TXT`; a download to standard output whose header read times out ends
with the `DELETE` of `_R.D`; the successful download of `hello` deletes nothing. -/
theorem cleanup_deletes_witness :
    (∃ w pre, main (exampleHost (str "<|040400000000") 0) 1
          [str "rssnex", str "-t", str "x", str "OUT.TXT"] = some (-1, w) ∧
      w.trace = pre ++ [Event.DELETE (str "OUT.TXT")] ∧ pre.countP Event.isDelete = 0) ∧
    (∃ w pre, main (stdoutHost [] (fun _ => 0) (fun _ => 3)) 1
          [str "rssnex", str "http://example/feed"] = some (-1, w) ∧
      w.trace = pre ++ [Event.DELETE (str "_R.D")] ∧ pre.countP Event.isDelete = 0) ∧
    (∃ w, main (exampleHost (str "<|020000000005hello") 2) 1
          [str "rssnex", str "http://example/feed"] = some (0, w) ∧
      w.trace.countP Event.isDelete = 0) :=
  ⟨(let ⟨w, hrun⟩ : ∃ w, main (exampleHost (str "<|040400000000") 0) 1
          [str "rssnex", str "-t", str "x", str "OUT.TXT"] = some (-1, w) := ⟨_, rfl⟩
    let ⟨pre, h1, h2⟩ := (cleanup_deletes (exampleHost (str "<|040400000000") 0) 1
        [str "rssnex", str "-t", str "x", str "OUT.TXT"]
        { quiet_mode := 1, datetime_sync_mode := 1, tz := 9, output_format := 0,
          rss_url := some (str "x"), output_file_name := str "OUT.TXT" } (-1) w
        (by decide) (by decide) (by decide) hrun).1 (by decide)
    ⟨w, pre, hrun, h1, h2⟩),
   (let ⟨w, hrun⟩ : ∃ w, main (stdoutHost [] (fun _ => 0) (fun _ => 3)) 1
          [str "rssnex", str "http://example/feed"] = some (-1, w) := ⟨_, rfl⟩
    let ⟨pre, h1, h2⟩ := (cleanup_deletes (stdoutHost [] (fun _ => 0) (fun _ => 3)) 1
        [str "rssnex", str "http://example/feed"]
        { quiet_mode := 0, datetime_sync_mode := 0, tz := 9, output_format := 0,
          rss_url := some (str "http://example/feed"), output_file_name := str "_R.D" } (-1) w
        (by decide) (by decide) (by decide) hrun).1 (by decide)
    ⟨w, pre, hrun, h1, h2⟩),
   (let ⟨w, hrun⟩ : ∃ w, main (exampleHost (str "<|020000000005hello") 2) 1
          [str "rssnex", str "http://example/feed"] = some (0, w) := ⟨_, rfl⟩
    ⟨w, hrun, (cleanup_deletes (exampleHost (str "<|020000000005hello") 2) 1
        [str "rssnex", str "http://example/feed"]
        { quiet_mode := 0, datetime_sync_mode := 0, tz := 9, output_format := 0,
          rss_url := some (str "http://example/feed"), output_file_name := str "_R.D" } 0 w
        (by decide) (by decide) (by decide) hrun).2.1 rfl⟩)⟩

end Rssnex
